import Mathlib

/-!
# RE2::Set over the rure C API (re2/set.cc)

A shallow embedding of `RE2::Set` as implemented in `re2/set.cc`: the
constructor, the move constructor and move assignment, `Add`, `Compile` and
`Match`.  The regular-expression engine behind the `rure_*` calls is not part
of `set.cc`; it is a parameter (`Engine`) of every operation.  Every
operation also returns the list of engine calls it made, in order.
-/

namespace RE2Set

/-! ## Strings -/

/-- A byte string (the contents of a `std::string`, or a haystack handed to the engine). -/
abbrev Bytes := List Nat

/-- A `StringPiece`: a pointer/length view.  `content` holds the `size()` bytes of the
view; `rest` holds the bytes that follow the view in memory, up to (excluding) the
NUL byte that ends the underlying buffer.  A piece made from a `std::string` or from
a C literal has `rest = []`. -/
structure StringPiece where
  content : Bytes
  rest : Bytes
deriving DecidableEq, Repr

/-- The bytes `strlen(p)` counts from a pointer to `mem`: everything before the first NUL. -/
def cstr (mem : Bytes) : Bytes :=
  mem.takeWhile (fun b => b != 0)

/-- The C string found at `piece.data()`, of length `strlen(piece.data())`. -/
def StringPiece.data_cstr (piece : StringPiece) : Bytes :=
  cstr (piece.content ++ piece.rest)

/-- The copy `piece.as_string()` makes: exactly the `size()` bytes of the view. -/
def StringPiece.as_string (piece : StringPiece) : Bytes :=
  piece.content

/-- The C string at `s.c_str()` for a `std::string` holding `s` (NUL-terminated copy). -/
def c_str (s : Bytes) : Bytes :=
  cstr s

/-- A view of a whole `std::string` (or C literal) holding `s`. -/
def StringPiece.ofBytes (s : Bytes) : StringPiece :=
  { content := s, rest := [] }

/-! ## The engine -/

/-- The calls `set.cc` makes into the engine, with the bytes it passes. -/
inductive EngineCall where
  | compile (pattern : Bytes) (flags : Nat)
  | compile_set (patterns : List Bytes) (flags : Nat)
  | set_is_match (haystack : Bytes)
  | set_matches (haystack : Bytes)
  | compile_must (pattern : Bytes)
  | find (haystack : Bytes)
deriving DecidableEq, Repr

/-- The engine behind the `rure_*` functions.  `R` is what a `rure *` points to and
`H` what a `rure_set *` points to.  Options are always `NULL` and the start offset is
always `0` in `set.cc`, so neither is an argument here.

* `rure_compile pattern flags`: `Except.error msg` stands for a `NULL` result whose
  `rure_error_message` is `msg`.
* `rure_compile_set patterns flags`: `none` stands for `NULL`.
* `rure_set_matches h haystack`: the returned `bool` and the flags the engine writes
  to the caller's array, one per pattern of the set, from slot 0 on.
* `rure_compile_must pattern`: `none` stands for the process being aborted.
* `rure_find re haystack`: `none` when the call returns `false` and writes no span,
  else the `(start, end)` it writes. -/
structure Engine (R H : Type) where
  RURE_DEFAULT_FLAGS : Nat
  rure_compile : Bytes → Nat → Except String R
  rure_compile_set : List Bytes → Nat → Option H
  rure_set_is_match : H → Bytes → Bool
  rure_set_matches : H → Bytes → Bool × List Bool
  rure_compile_must : Bytes → Option R
  rure_find : R → Bytes → Option (Nat × Nat)

/-! ## The set -/

/-- The anchor of a set (`RE2::Anchor`). -/
inductive Anchor where
  | UNANCHORED
  | ANCHOR_START
  | ANCHOR_BOTH
deriving DecidableEq, Repr

/-- The part of `RE2::Options` that `set.cc` touches: the never-capture switch;
`other` stands for all remaining settings, which `set.cc` only copies. -/
structure Options where
  never_capture : Bool
  other : Nat
deriving DecidableEq, Repr

/-- The data members of `RE2::Set` as `set.cc` uses them.  `elem_` keeps only the
string of each pair (the `Regexp*` is always `nullptr`); `prog_` is the owned
handle (`none` for a null `unique_ptr`); `size_` is the `int` counter, taken
unbounded (a set never holds 2^31 patterns). -/
structure Set (H : Type) where
  options_ : Options
  anchor_ : Anchor
  elem_ : List Bytes
  compiled_ : Bool
  size_ : Int
  prog_ : Option H
deriving DecidableEq, Repr

/-- The constructor `RE2::Set::Set(options, anchor)`. -/
def Set.new (H : Type) (options : Options) (anchor : Anchor) : Set H :=
  { options_ := { options with never_capture := true }
    anchor_ := anchor
    elem_ := []
    compiled_ := false
    size_ := 0
    prog_ := none }

/-- What a move leaves behind: the new object and the moved-from one. -/
structure Moved (H : Type) where
  dest : Set H
  other : Set H
deriving DecidableEq, Repr

/-- The move constructor `RE2::Set::Set(Set&& other)`.  Its initialiser list names
`options_`, `anchor_`, `compiled_` and `prog_` only: `elem_` is default-constructed
(empty) and `size_` is left uninitialised, `indeterminate` being the value it
happens to hold. -/
def Set.move (other : Set H) (indeterminate : Int) : Moved H :=
  { dest :=
      { options_ := other.options_
        anchor_ := other.anchor_
        elem_ := []
        compiled_ := other.compiled_
        size_ := indeterminate
        prog_ := other.prog_ }
    other :=
      { other with
        elem_ := []
        compiled_ := false
        size_ := 0
        prog_ := none } }

/-- What a move assignment leaves behind, with the handle the destructor of the
overwritten object released. -/
structure MoveAssigned (H : Type) where
  dest : Set H
  other : Set H
  released : Option H
deriving DecidableEq, Repr

/-- The move assignment `operator=(Set&& other)` for two distinct objects: the
destructor runs on `this` (releasing its handle), then the move constructor
builds the new object in its place. -/
def Set.moveAssign (this : Set H) (other : Set H) (indeterminate : Int) : MoveAssigned H :=
  let m := Set.move other indeterminate
  { dest := m.dest, other := m.other, released := this.prog_ }

/-! ## Add -/

/-- What `Add` leaves behind: the returned `int`, the set, the caller's `error`
string (`none` when the caller passed `NULL`) and the engine calls made. -/
structure AddResult (H : Type) where
  ret : Int
  set : Set H
  error : Option String
  calls : List EngineCall
deriving DecidableEq, Repr

/-- The method `RE2::Set::Add(pattern, error)`. -/
def Add (E : Engine R H) (s : Set H) (pattern : StringPiece) (error : Option String) :
    AddResult H :=
  let place_num := s.size_
  let rure_str := pattern.data_cstr
  match E.rure_compile rure_str E.RURE_DEFAULT_FLAGS with
  | Except.error msg =>
      { ret := -1
        set := s
        error := error.map (fun _ => msg)
        calls := [EngineCall.compile rure_str E.RURE_DEFAULT_FLAGS] }
  | Except.ok _ =>
      { ret := place_num
        set := { s with elem_ := s.elem_ ++ [pattern.as_string], size_ := s.size_ + 1 }
        error := error
        calls := [EngineCall.compile rure_str E.RURE_DEFAULT_FLAGS] }

/-! ## Compile -/

/-- What `Compile` leaves behind: the returned `bool`, the set and the engine calls made. -/
structure CompileResult (H : Type) where
  ret : Bool
  set : Set H
  calls : List EngineCall
deriving DecidableEq, Repr

/-- The method `RE2::Set::Compile()`.  The engine is handed `elem_[i].first` with
its full `length()` for every `i`, and flags `0`. -/
def Compile (E : Engine R H) (s : Set H) : CompileResult H :=
  if s.compiled_ then
    { ret := false, set := s, calls := [] }
  else
    match E.rure_compile_set s.elem_ 0 with
    | none =>
        { ret := false
          set := { s with compiled_ := false }
          calls := [EngineCall.compile_set s.elem_ 0] }
    | some re =>
        { ret := true
          set := { s with compiled_ := true, prog_ := some re }
          calls := [EngineCall.compile_set s.elem_ 0] }

/-! ## Match -/

/-- The enumerators of `RE2::Set::ErrorKind`: `set.cc` names `kNotCompiled` only;
`kOther n` stands for the n-th of the remaining ones. -/
inductive ErrorKind where
  | kNotCompiled
  | kOther (n : Nat)
deriving DecidableEq, Repr

/-- The struct `RE2::Set::ErrorInfo`. -/
structure ErrorInfo where
  kind : ErrorKind
deriving DecidableEq, Repr

/-- How a call ends: it returns, or `rure_compile_must` aborts the process, or the
call has no defined behaviour (the engine is handed a null handle, or writes more
flags than `matches[]` has slots). -/
inductive Outcome (α : Type) where
  | returned (a : α)
  | aborted
  | undefined
deriving DecidableEq, Repr

/-- What `Match` leaves behind: the returned `bool`, the caller's vector `v`
(`none` when the caller passed `NULL`), the caller's `error_info` (`none` when
`NULL`) and the engine calls made. -/
structure MatchResult where
  ret : Bool
  v : Option (List Int)
  error_info : Option ErrorInfo
  calls : List EngineCall
deriving DecidableEq, Repr

/-- What `Match` returns on a set that is not compiled. -/
def notCompiledResult (v : Option (List Int)) (error_info : Option ErrorInfo) : MatchResult :=
  { ret := false
    v := v
    error_info := error_info.map (fun _ => { kind := ErrorKind.kNotCompiled })
    calls := [] }

/-- The array `bool matches[n]` after `rure_set_matches` wrote `flags` into it:
slot `i` holds `flags[i]` when the engine wrote it, and else whatever the stack
held there before (`stack i`). -/
def matchesArray (flags : List Bool) (stack : Nat → Bool) (i : Nat) : Bool :=
  flags.getD i (stack i)

/-- The loop `for (i = 0; i < elem_.size(); i++) if (matches[i]) v->push_back(i);`
from index `i` on, with `k` iterations left. -/
def pushMatches (matched : Nat → Bool) : Nat → Nat → List Int → List Int
  | 0, _, v => v
  | k + 1, i, v => pushMatches matched k (i + 1) (if matched i then v ++ [(i : Int)] else v)

/-- The test `match.start == 0 && match.end == strlen(pat_str)` on the span that
`rure_find` left in `match`, which starts out as `{0}`. -/
def fullSpan (found : Option (Nat × Nat)) (haystack : Bytes) : Bool :=
  let m := found.getD (0, 0)
  m.1 == 0 && m.2 == haystack.length

/-- The `ANCHOR_BOTH` loop of the `v == NULL` branch over `elem_[i], elem_[i+1], ...`:
returns `true` at the first flagged pattern whose recompiled regex spans the text. -/
def anyFullMatch (E : Engine R H) (matched : Nat → Bool) (haystack : Bytes) :
    List Bytes → Nat → List EngineCall → Outcome (Bool × List EngineCall)
  | [], _, calls => Outcome.returned (false, calls)
  | first :: elems, i, calls =>
      if matched i then
        let pattern := c_str first
        match E.rure_compile_must pattern with
        | none => Outcome.aborted
        | some re =>
            let calls := calls ++ [EngineCall.compile_must pattern, EngineCall.find haystack]
            if fullSpan (E.rure_find re haystack) haystack then
              Outcome.returned (true, calls)
            else
              anyFullMatch E matched haystack elems (i + 1) calls
      else
        anyFullMatch E matched haystack elems (i + 1) calls

/-- The `ANCHOR_BOTH` loop of the `v != NULL` branch over `elem_[i], elem_[i+1], ...`:
pushes every flagged index whose recompiled regex spans the text. -/
def pushFullMatches (E : Engine R H) (matched : Nat → Bool) (haystack : Bytes) :
    List Bytes → Nat → List Int → List EngineCall → Outcome (List Int × List EngineCall)
  | [], _, v, calls => Outcome.returned (v, calls)
  | first :: elems, i, v, calls =>
      if matched i then
        let pattern := c_str first
        match E.rure_compile_must pattern with
        | none => Outcome.aborted
        | some re =>
            let calls := calls ++ [EngineCall.compile_must pattern, EngineCall.find haystack]
            if fullSpan (E.rure_find re haystack) haystack then
              pushFullMatches E matched haystack elems (i + 1) (v ++ [(i : Int)]) calls
            else
              pushFullMatches E matched haystack elems (i + 1) v calls
      else
        pushFullMatches E matched haystack elems (i + 1) v calls

/-- The `UNANCHORED` case (set.cc:144-167). -/
def matchPlain (E : Engine R H) (s : Set H) (re : H) (pat_str : Bytes)
    (v : Option (List Int)) (error_info : Option ErrorInfo) (stack : Nat → Bool) :
    Outcome MatchResult :=
  match v with
  | none =>
      Outcome.returned
        { ret := E.rure_set_is_match re pat_str
          v := none
          error_info := error_info
          calls := [EngineCall.set_is_match pat_str] }
  | some _ =>
      let out := E.rure_set_matches re pat_str
      if s.elem_.length < out.2.length then Outcome.undefined
      else if !out.1 then
        Outcome.returned
          { ret := false, v := some [], error_info := error_info
            calls := [EngineCall.set_matches pat_str] }
      else
        Outcome.returned
          { ret := true
            v := some (pushMatches (matchesArray out.2 stack) s.elem_.length 0 [])
            error_info := error_info
            calls := [EngineCall.set_matches pat_str] }

/-- The `ANCHOR_START` case (set.cc:216-239), written out from the source on its own. -/
def matchStart (E : Engine R H) (s : Set H) (re : H) (pat_str : Bytes)
    (v : Option (List Int)) (error_info : Option ErrorInfo) (stack : Nat → Bool) :
    Outcome MatchResult :=
  match v with
  | none =>
      let result := E.rure_set_is_match re pat_str
      Outcome.returned
        { ret := result
          v := none
          error_info := error_info
          calls := [EngineCall.set_is_match pat_str] }
  | some _ =>
      let out := E.rure_set_matches re pat_str
      if s.elem_.length < out.2.length then Outcome.undefined
      else if !out.1 then
        Outcome.returned
          { ret := false, v := some [], error_info := error_info
            calls := [EngineCall.set_matches pat_str] }
      else
        Outcome.returned
          { ret := true
            v := some (pushMatches (matchesArray out.2 stack) s.elem_.length 0 [])
            error_info := error_info
            calls := [EngineCall.set_matches pat_str] }

/-- The `ANCHOR_BOTH` case (set.cc:169-215). -/
def matchBoth (E : Engine R H) (s : Set H) (re : H) (pat_str : Bytes)
    (v : Option (List Int)) (error_info : Option ErrorInfo) (stack : Nat → Bool) :
    Outcome MatchResult :=
  let out := E.rure_set_matches re pat_str
  if s.elem_.length < out.2.length then Outcome.undefined
  else
    match v with
    | none =>
        if !out.1 then
          Outcome.returned
            { ret := false, v := none, error_info := error_info
              calls := [EngineCall.set_matches pat_str] }
        else
          match anyFullMatch E (matchesArray out.2 stack) pat_str s.elem_ 0
              [EngineCall.set_matches pat_str] with
          | Outcome.returned (found, calls) =>
              Outcome.returned
                { ret := found, v := none, error_info := error_info, calls := calls }
          | Outcome.aborted => Outcome.aborted
          | Outcome.undefined => Outcome.undefined
    | some _ =>
        if !out.1 then
          Outcome.returned
            { ret := false, v := some [], error_info := error_info
              calls := [EngineCall.set_matches pat_str] }
        else
          match pushFullMatches E (matchesArray out.2 stack) pat_str s.elem_ 0 []
              [EngineCall.set_matches pat_str] with
          | Outcome.returned (w, calls) =>
              Outcome.returned
                { ret := decide (w.length ≠ 0), v := some w, error_info := error_info
                  calls := calls }
          | Outcome.aborted => Outcome.aborted
          | Outcome.undefined => Outcome.undefined

/-- The method `RE2::Set::Match(text, v, error_info)`.  `stack` is what the stack
holds where `matches[]` is allocated.  The text handed to the engine is the C
string at `text.data()`, `strlen(text.data())` bytes long. -/
def Match (E : Engine R H) (s : Set H) (text : StringPiece) (v : Option (List Int))
    (error_info : Option ErrorInfo) (stack : Nat → Bool) : Outcome MatchResult :=
  if !s.compiled_ then
    Outcome.returned
      { ret := false
        v := v
        error_info := error_info.map (fun info => { info with kind := ErrorKind.kNotCompiled })
        calls := [] }
  else
    let pat_str := text.data_cstr
    match s.prog_ with
    | none => Outcome.undefined
    | some re =>
        match s.anchor_ with
        | Anchor.UNANCHORED => matchPlain E s re pat_str v error_info stack
        | Anchor.ANCHOR_BOTH => matchBoth E s re pat_str v error_info stack
        | Anchor.ANCHOR_START => matchStart E s re pat_str v error_info stack

/-- The two-argument overload `RE2::Set::Match(text, v)`. -/
def Match2 (E : Engine R H) (s : Set H) (text : StringPiece) (v : Option (List Int))
    (stack : Nat → Bool) : Outcome MatchResult :=
  Match E s text v none stack

/-! ## Index lists -/

/-- A list of indices is ascending below `bound`: strictly increasing, every entry
at least 0 and smaller than `bound`. -/
def Ascending (v : List Int) (bound : Nat) : Prop :=
  v.Pairwise (fun a b => a < b) ∧ ∀ x ∈ v, 0 ≤ x ∧ x < (bound : Int)

/-- Whether the `ANCHOR_BOTH` loops keep index `i` holding `first`: the slot is
flagged, and the recompiled regex finds a span covering the whole haystack. -/
def keepsFull (E : Engine R H) (matched : Nat → Bool) (haystack : Bytes)
    (entry : Nat × Bytes) : Bool :=
  matched entry.1 &&
    match E.rure_compile_must (c_str entry.2) with
    | none => false
    | some re => fullSpan (E.rure_find re haystack) haystack

/-! ## Sequences of calls -/

/-- Whether `Add` finds the pattern accepted: `rure_compile` on the C string at
`pattern.data()` returned a regex rather than `NULL`. -/
def accepted (E : Engine R H) (pattern : StringPiece) : Bool :=
  match E.rure_compile pattern.data_cstr E.RURE_DEFAULT_FLAGS with
  | Except.ok _ => true
  | Except.error _ => false

/-- A sequence of `Add` calls, each with its `pattern` and `error` arguments, run in
order from `s`: the values returned, in call order, and the set left behind. -/
def addAll (E : Engine R H) (s : Set H) : List (StringPiece × Option String) → List Int × Set H
  | [] => ([], s)
  | call :: calls =>
      let r := Add E s call.1 call.2
      let rest := addAll E r.set calls
      (r.ret :: rest.1, rest.2)

/-- A call that can change a set: `Add(pattern, error)` or `Compile()`.  `Match` is
a `const` method and leaves the set as it is, so it does not appear. -/
inductive Call where
  | add (pattern : StringPiece) (error : Option String)
  | compile
deriving DecidableEq, Repr

/-- The set after one call. -/
def step (E : Engine R H) (s : Set H) : Call → Set H
  | Call.add pattern error => (Add E s pattern error).set
  | Call.compile => (Compile E s).set

/-- The set after a sequence of calls, in order. -/
def run (E : Engine R H) (s : Set H) (calls : List Call) : Set H :=
  calls.foldl (step E) s

/-- The pieces passed to the `Add` calls of a sequence. -/
def addedPieces : List Call → List StringPiece
  | [] => []
  | Call.add pattern _ :: calls => pattern :: addedPieces calls
  | Call.compile :: calls => addedPieces calls

/-! ## A small engine for the concrete examples

Literal bytes, `.` and postfix `*`; leftmost match, greedy repetition.  Used only
to run the operations on concrete patterns and texts. -/

namespace Example

/-- One position of a pattern: a literal byte or `.`. -/
inductive Atom where
  | lit (b : Nat)
  | any
deriving DecidableEq, Repr

/-- An atom, possibly under `*`. -/
structure Piece where
  atom : Atom
  star : Bool
deriving DecidableEq, Repr

/-- Whether the atom accepts byte `c` (`.` accepts all but the line feed). -/
def Atom.accepts : Atom → Nat → Bool
  | Atom.lit b, c => b == c
  | Atom.any, c => c != 10

/-- The bytes of `( ) + ? [ \ ] ^ $ { | }`, which this engine does not support. -/
def unsupported : List Nat := [40, 41, 43, 63, 91, 92, 93, 94, 36, 123, 124, 125]

/-- One parsing step over the reversed list of pieces read so far. -/
def parseStep (acc : Except String (List Piece)) (b : Nat) : Except String (List Piece) :=
  match acc with
  | Except.error msg => Except.error msg
  | Except.ok pieces =>
      if b == 42 then
        match pieces with
        | [] => Except.error "repetition operator missing expression"
        | last :: before =>
            if last.star then Except.error "repetition operator missing expression"
            else Except.ok ({ last with star := true } :: before)
      else if unsupported.contains b then Except.error "unsupported syntax"
      else if b == 46 then Except.ok ({ atom := Atom.any, star := false } :: pieces)
      else Except.ok ({ atom := Atom.lit b, star := false } :: pieces)

/-- Parses a pattern into its pieces. -/
def parse (pattern : Bytes) : Except String (List Piece) :=
  match pattern.foldl parseStep (Except.ok []) with
  | Except.error msg => Except.error msg
  | Except.ok pieces => Except.ok pieces.reverse

/-- Greedy `atom*` followed by the continuation `k`: the length matched, if any. -/
def matchStar (a : Atom) (k : Bytes → Option Nat) : Bytes → Option Nat
  | [] => k []
  | c :: cs =>
      if a.accepts c then
        match matchStar a k cs with
        | some n => some (n + 1)
        | none => k (c :: cs)
      else k (c :: cs)

/-- Matches the pieces at the start of the text: the length matched, if any. -/
def matchHere : List Piece → Bytes → Option Nat
  | [], _ => some 0
  | p :: ps, t =>
      if p.star then matchStar p.atom (matchHere ps) t
      else
        match t with
        | [] => none
        | c :: cs => if p.atom.accepts c then (matchHere ps cs).map (fun n => n + 1) else none

/-- The leftmost match at or after offset `i`, `t` being the text from `i` on. -/
def findFrom (ps : List Piece) : Bytes → Nat → Option (Nat × Nat)
  | [], i => (matchHere ps []).map (fun n => (i, i + n))
  | c :: cs, i =>
      match matchHere ps (c :: cs) with
      | some n => some (i, i + n)
      | none => findFrom ps cs (i + 1)

/-- Parses every pattern of a set; `none` as soon as one fails. -/
def parseAll : List Bytes → Option (List (List Piece))
  | [] => some []
  | p :: ps =>
      match parse p, parseAll ps with
      | Except.ok r, some rs => some (r :: rs)
      | _, _ => none

/-- The flags of a set on a text: which patterns match somewhere. -/
def flagsOf (h : List (List Piece)) (t : Bytes) : List Bool :=
  h.map (fun r => (findFrom r t 0).isSome)

/-- The example engine; a set whose patterns total more than `budget` bytes is
refused by the combined compile. -/
def engine (budget : Nat) : Engine (List Piece) (List (List Piece)) :=
  { RURE_DEFAULT_FLAGS := 8
    rure_compile := fun pattern _ => parse pattern
    rure_compile_set := fun patterns _ =>
      if budget < (patterns.map List.length).sum then none else parseAll patterns
    rure_set_is_match := fun h t => (flagsOf h t).any id
    rure_set_matches := fun h t => ((flagsOf h t).any id, flagsOf h t)
    rure_compile_must := fun pattern =>
      match parse pattern with
      | Except.ok r => some r
      | Except.error _ => none
    rure_find := fun r t => findFrom r t 0 }

/-- Parses a pattern that may be one group: a pattern enclosed in `(` and `)` is
its inside; `(` without the closing `)` is an error. -/
def parseGroup (pattern : Bytes) : Except String (List Piece) :=
  match pattern with
  | 40 :: inside =>
      if inside.getLast? = some 41 then parse inside.dropLast
      else Except.error "unclosed group"
  | _ => parse pattern

/-- Parses every pattern of a set with `parseGroup`; `none` as soon as one fails. -/
def parseGroups : List Bytes → Option (List (List Piece))
  | [] => some []
  | p :: ps =>
      match parseGroup p, parseGroups ps with
      | Except.ok r, some rs => some (r :: rs)
      | _, _ => none

/-- The example engine with groups: every compile goes through `parseGroup`. -/
def groupEngine : Engine (List Piece) (List (List Piece)) :=
  { RURE_DEFAULT_FLAGS := 8
    rure_compile := fun pattern _ => parseGroup pattern
    rure_compile_set := fun patterns _ => parseGroups patterns
    rure_set_is_match := fun h t => (flagsOf h t).any id
    rure_set_matches := fun h t => ((flagsOf h t).any id, flagsOf h t)
    rure_compile_must := fun pattern =>
      match parseGroup pattern with
      | Except.ok r => some r
      | Except.error _ => none
    rure_find := fun r t => findFrom r t 0 }

/-- A freshly constructed set with the given anchor. -/
def fresh (anchor : Anchor) : Set (List (List Piece)) :=
  Set.new (List (List Piece)) { never_capture := false, other := 0 } anchor

/-- The set after `Add(p, NULL)` for every `p` of `patterns`, each a whole string. -/
def register (budget : Nat) (s : Set (List (List Piece))) (patterns : List Bytes) :
    Set (List (List Piece)) :=
  (addAll (engine budget) s (patterns.map (fun p => (StringPiece.ofBytes p, none)))).2

/-- A fresh set, the patterns added, then `Compile()`. -/
def build (budget : Nat) (anchor : Anchor) (patterns : List Bytes) : Set (List (List Piece)) :=
  (Compile (engine budget) (register budget (fresh anchor) patterns)).set

/-- A stack that holds `false` wherever `matches[]` is allocated. -/
def zeroStack : Nat → Bool := fun _ => false

/-- A stack that holds `true` wherever `matches[]` is allocated. -/
def dirtyStack : Nat → Bool := fun _ => true

end Example

/-! ## Registration -/

theorem matchStart_eq_matchPlain (E : Engine R H) (s : Set H) (re : H) (pat_str : Bytes)
    (v : Option (List Int)) (error_info : Option ErrorInfo) (stack : Nat → Bool) :
    matchStart E s re pat_str v error_info stack =
      matchPlain E s re pat_str v error_info stack := by
  unfold matchStart matchPlain
  cases v <;> rfl

theorem Add_accepted (E : Engine R H) (s : Set H) (pattern : StringPiece)
    (error : Option String) (h : accepted E pattern = true) :
    Add E s pattern error =
      { ret := s.size_
        set := { s with elem_ := s.elem_ ++ [pattern.as_string], size_ := s.size_ + 1 }
        error := error
        calls := [EngineCall.compile pattern.data_cstr E.RURE_DEFAULT_FLAGS] } := by
  unfold accepted at h
  unfold Add
  split at h
  · next r hr => simp [hr]
  · simp at h

theorem Add_rejected (E : Engine R H) (s : Set H) (pattern : StringPiece)
    (error : Option String) (h : accepted E pattern = false) :
    (Add E s pattern error).ret = -1 ∧ (Add E s pattern error).set = s := by
  unfold accepted at h
  unfold Add
  split at h
  · simp at h
  · next msg hm => simp [hm]

theorem addAll_spec (E : Engine R H) (calls : List (StringPiece × Option String)) :
    ∀ s : Set H,
      (addAll E s calls).2.elem_ =
          s.elem_ ++ ((calls.filter (fun c => accepted E c.1)).map (fun c => c.1.as_string)) ∧
      (addAll E s calls).2.size_ = s.size_ + (calls.countP (fun c => accepted E c.1) : Nat) ∧
      (addAll E s calls).2.compiled_ = s.compiled_ ∧
      (addAll E s calls).2.anchor_ = s.anchor_ ∧
      (addAll E s calls).2.prog_ = s.prog_ ∧
      (addAll E s calls).2.options_ = s.options_ ∧
      (addAll E s calls).1.length = calls.length ∧
      ∀ j (hj : j < calls.length),
        (addAll E s calls).1[j]? =
          some (if accepted E (calls.get ⟨j, hj⟩).1 then
                  s.size_ + ((calls.take j).countP (fun c => accepted E c.1) : Nat)
                else -1) := by
  induction calls with
  | nil => intro s; simp [addAll]
  | cons call calls ih =>
      intro s
      cases hacc : accepted E call.1
      · have hr := Add_rejected E s call.1 call.2 hacc
        have ih1 := ih s
        simp only [addAll, hr.2]
        refine ⟨?_, ?_, ih1.2.2.1, ih1.2.2.2.1, ih1.2.2.2.2.1, ih1.2.2.2.2.2.1, ?_, ?_⟩
        · rw [ih1.1]; simp [List.filter_cons, hacc]
        · rw [ih1.2.1]; simp [List.countP_cons, hacc]
        · simp [ih1.2.2.2.2.2.2.1]
        · intro j hj
          cases j with
          | zero => simp [hacc, hr.1]
          | succ j =>
              have hj2 : j < calls.length := by simpa using hj
              have := ih1.2.2.2.2.2.2.2 j hj2
              simp only [List.getElem?_cons_succ, this, List.get_eq_getElem,
                List.getElem_cons_succ, List.take_succ_cons, List.countP_cons, hacc]
              simp
      · have hr := Add_accepted E s call.1 call.2 hacc
        have ih1 := ih { s with elem_ := s.elem_ ++ [call.1.as_string], size_ := s.size_ + 1 }
        simp only [addAll, hr]
        refine ⟨?_, ?_, ih1.2.2.1, ih1.2.2.2.1, ih1.2.2.2.2.1, ih1.2.2.2.2.2.1, ?_, ?_⟩
        · rw [ih1.1]; simp [List.filter_cons, hacc]
        · rw [ih1.2.1]; simp [List.countP_cons, hacc]; omega
        · simp [ih1.2.2.2.2.2.2.1]
        · intro j hj
          cases j with
          | zero => simp [hacc]
          | succ j =>
              have hj2 : j < calls.length := by simpa using hj
              have := ih1.2.2.2.2.2.2.2 j hj2
              simp only [List.getElem?_cons_succ, this, List.get_eq_getElem,
                List.getElem_cons_succ, List.take_succ_cons, List.countP_cons, hacc]
              split
              · simp; omega
              · simp

/-- Index accounting of Add in terms of the engine's verdict on the C string at
`pattern.data()`: on a freshly constructed set, a sequence of Add calls returns, at
every call whose C string the engine accepts, the number of such calls before it
and -1 at every other call; afterwards the stored strings are the `as_string()` of
the pieces of those calls in call order, and both the vector length and the
counter equal their number. -/
theorem add_indices_in_registration_order (E : Engine R H) (options : Options)
    (anchor : Anchor) (calls : List (StringPiece × Option String)) :
    (addAll E (Set.new H options anchor) calls).1.length = calls.length ∧
    (∀ j (hj : j < calls.length),
      (addAll E (Set.new H options anchor) calls).1[j]? =
        some (if accepted E (calls.get ⟨j, hj⟩).1 then
                (((calls.take j).countP (fun c => accepted E c.1) : Nat) : Int)
              else -1)) ∧
    (addAll E (Set.new H options anchor) calls).2.elem_ =
      (calls.filter (fun c => accepted E c.1)).map (fun c => c.1.as_string) ∧
    (addAll E (Set.new H options anchor) calls).2.elem_.length =
      calls.countP (fun c => accepted E c.1) ∧
    (addAll E (Set.new H options anchor) calls).2.size_ =
      ((calls.countP (fun c => accepted E c.1) : Nat) : Int) := by
  have h := addAll_spec E calls (Set.new H options anchor)
  refine ⟨h.2.2.2.2.2.2.1, ?_, ?_, ?_, ?_⟩
  · intro j hj
    have := h.2.2.2.2.2.2.2 j hj
    simpa [Set.new] using this
  · simpa [Set.new] using h.1
  · rw [h.1]; simp [Set.new, List.countP_eq_length_filter]
  · simpa [Set.new] using h.2.1

/-- The two branches of Add in terms of the engine's verdict on the C string at
`pattern.data()`: when the engine rejects that C string, Add returns -1, puts the
engine's message into the caller's error string when one is supplied (and leaves
a NULL error alone), and returns the set unchanged in every member; when the
engine accepts it, Add appends `pattern.as_string()` and returns the counter,
which is not -1 for a non-negative counter. -/
theorem add_fails_atomically (E : Engine R H) (s : Set H) (pattern : StringPiece) :
    (∀ msg, E.rure_compile pattern.data_cstr E.RURE_DEFAULT_FLAGS = Except.error msg →
      ∀ error : Option String,
        (Add E s pattern error).ret = -1 ∧
        (Add E s pattern error).error = error.map (fun _ => msg) ∧
        (Add E s pattern (some "")).error = some msg ∧
        (Add E s pattern error).set = s ∧
        (Add E s pattern error).set.elem_ = s.elem_ ∧
        (Add E s pattern error).set.size_ = s.size_ ∧
        (Add E s pattern error).set.compiled_ = s.compiled_) ∧
    (∀ re, E.rure_compile pattern.data_cstr E.RURE_DEFAULT_FLAGS = Except.ok re →
      ∀ error : Option String,
        (Add E s pattern error).ret = s.size_ ∧
        (0 ≤ s.size_ → (Add E s pattern error).ret ≠ -1) ∧
        (Add E s pattern error).set.elem_ = s.elem_ ++ [pattern.as_string] ∧
        (Add E s pattern error).error = error) := by
  constructor
  · intro msg hmsg error
    simp [Add, hmsg]
  · intro re hre error
    simp only [Add, hre]
    refine ⟨trivial, ?_, trivial, trivial⟩
    intro h0 h1
    omega

/-- C10: the move constructor and the move assignment leave the moved-from set
with no patterns, counter 0, the compiled flag false and a null handle, while the
destination holds the handle (and flag and anchor) the source had. -/
theorem move_resets_source (other : Set H) (this : Set H) (indeterminate : Int) :
    ((Set.move other indeterminate).other.elem_ = [] ∧
      (Set.move other indeterminate).other.elem_.length = 0 ∧
      (Set.move other indeterminate).other.size_ = 0 ∧
      (Set.move other indeterminate).other.compiled_ = false ∧
      (Set.move other indeterminate).other.prog_ = none ∧
      (Set.move other indeterminate).dest.prog_ = other.prog_) ∧
    ((Set.moveAssign this other indeterminate).other.elem_ = [] ∧
      (Set.moveAssign this other indeterminate).other.elem_.length = 0 ∧
      (Set.moveAssign this other indeterminate).other.size_ = 0 ∧
      (Set.moveAssign this other indeterminate).other.compiled_ = false ∧
      (Set.moveAssign this other indeterminate).other.prog_ = none ∧
      (Set.moveAssign this other indeterminate).dest.prog_ = other.prog_) := by
  simp [Set.move, Set.moveAssign]

/-! ## The compiled flag -/

theorem Match_of_not_compiled (E : Engine R H) (s : Set H) (text : StringPiece)
    (v : Option (List Int)) (error_info : Option ErrorInfo) (stack : Nat → Bool)
    (h : s.compiled_ = false) :
    Match E s text v error_info stack = Outcome.returned (notCompiledResult v error_info) := by
  simp [Match, h, notCompiledResult]

theorem matchPlain_error_info (E : Engine R H) (s : Set H) (re : H) (pat_str : Bytes)
    (v : Option (List Int)) (error_info : Option ErrorInfo) (stack : Nat → Bool)
    (r : MatchResult)
    (h : matchPlain E s re pat_str v error_info stack = Outcome.returned r) :
    r.error_info = error_info := by
  unfold matchPlain at h
  split at h
  · cases h; rfl
  · simp only at h
    split at h
    · cases h
    · split at h <;> (cases h; rfl)

theorem matchBoth_error_info (E : Engine R H) (s : Set H) (re : H) (pat_str : Bytes)
    (v : Option (List Int)) (error_info : Option ErrorInfo) (stack : Nat → Bool)
    (r : MatchResult)
    (h : matchBoth E s re pat_str v error_info stack = Outcome.returned r) :
    r.error_info = error_info := by
  unfold matchBoth at h
  simp only at h
  split at h
  · cases h
  · split at h
    · split at h
      · cases h; rfl
      · split at h
        · cases h; rfl
        · cases h
        · cases h
    · split at h
      · cases h; rfl
      · split at h
        · cases h; rfl
        · cases h
        · cases h

/-- C3: Match reports not-compiled exactly on a set whose compiled flag is false.
On every such set, and so on a fresh set after any Add calls, and on a set whose
Compile failed in the engine after any further Add calls, Match returns false,
sets the kind of a supplied error_info to kNotCompiled, makes no engine call and
hands back the caller's vector as it was; on a set whose flag is true, a Match
that returns leaves error_info as the caller passed it. -/
theorem match_reports_not_compiled (E : Engine R H) (s : Set H) (text : StringPiece)
    (v : Option (List Int)) (error_info : Option ErrorInfo) (stack : Nat → Bool) :
    (s.compiled_ = false →
      Match E s text v error_info stack =
        Outcome.returned
          { ret := false
            v := v
            error_info := error_info.map (fun _ => { kind := ErrorKind.kNotCompiled })
            calls := [] }) ∧
    (∀ options anchor calls,
      Match E (addAll E (Set.new H options anchor) calls).2 text v error_info stack =
        Outcome.returned (notCompiledResult v error_info)) ∧
    (∀ calls, s.compiled_ = false → E.rure_compile_set s.elem_ 0 = none →
      (Compile E s).ret = false ∧
      Match E (addAll E (Compile E s).set calls).2 text v error_info stack =
        Outcome.returned (notCompiledResult v error_info)) ∧
    (s.compiled_ = true → ∀ r, Match E s text v error_info stack = Outcome.returned r →
      r.error_info = error_info) := by
  refine ⟨?_, ?_, ?_, ?_⟩
  · intro h
    exact Match_of_not_compiled E s text v error_info stack h
  · intro options anchor calls
    apply Match_of_not_compiled
    rw [(addAll_spec E calls _).2.2.1]
    rfl
  · intro calls hc hfail
    have hC : Compile E s =
        { ret := false
          set := { s with compiled_ := false }
          calls := [EngineCall.compile_set s.elem_ 0] } := by
      simp [Compile, hc, hfail]
    refine ⟨by rw [hC], ?_⟩
    apply Match_of_not_compiled
    rw [(addAll_spec E calls _).2.2.1, hC]
  · intro hc r hr
    unfold Match at hr
    simp only [hc, Bool.not_true, Bool.false_eq_true, if_false] at hr
    split at hr
    · cases hr
    · split at hr
      · exact matchPlain_error_info _ _ _ _ _ _ _ _ hr
      · exact matchBoth_error_info _ _ _ _ _ _ _ _ hr
      · rw [matchStart_eq_matchPlain] at hr
        exact matchPlain_error_info _ _ _ _ _ _ _ _ hr

theorem anchor_unchanged (E : Engine R H) (s : Set H) (pattern : StringPiece)
    (error : Option String) :
    (Add E s pattern error).set.anchor_ = s.anchor_ ∧ (Compile E s).set.anchor_ = s.anchor_ := by
  constructor
  · unfold Add
    simp only
    split <;> rfl
  · unfold Compile
    split
    · rfl
    · split <;> rfl

theorem Compile_of_compiled (E : Engine R H) (s : Set H) (h : s.compiled_ = true) :
    Compile E s = { ret := false, set := s, calls := [] } := by
  simp [Compile, h]

/-- C4 as amended: on a set whose Compile succeeded, every later Compile (also
after further Add calls) returns false, makes no engine call and leaves the set as
it is; a Compile that fails in the engine returns false and leaves the set as it
was, not compiled, and the next Compile submits the stored patterns to the
engine's combined compile again. -/
theorem compile_refused_once_compiled (E : Engine R H) (s : Set H) :
    (s.compiled_ = true → Compile E s = { ret := false, set := s, calls := [] }) ∧
    (∀ re calls, s.compiled_ = false → E.rure_compile_set s.elem_ 0 = some re →
      (Compile E s).ret = true ∧
      Compile E (addAll E (Compile E s).set calls).2 =
        { ret := false, set := (addAll E (Compile E s).set calls).2, calls := [] }) ∧
    (s.compiled_ = false → E.rure_compile_set s.elem_ 0 = none →
      (Compile E s).ret = false ∧
      (Compile E s).set = s ∧
      Compile E (Compile E s).set = Compile E s ∧
      (Compile E (Compile E s).set).calls = [EngineCall.compile_set s.elem_ 0]) := by
  refine ⟨?_, ?_, ?_⟩
  · intro h
    exact Compile_of_compiled E s h
  · intro re calls hc hre
    have hC : Compile E s =
        { ret := true
          set := { s with compiled_ := true, prog_ := some re }
          calls := [EngineCall.compile_set s.elem_ 0] } := by
      simp [Compile, hc, hre]
    refine ⟨by rw [hC], ?_⟩
    apply Compile_of_compiled
    rw [(addAll_spec E calls _).2.2.1, hC]
  · intro hc hfail
    have hset : ({ s with compiled_ := false } : Set H) = s := by
      cases s
      simp_all
    have hC : Compile E s =
        { ret := false, set := s, calls := [EngineCall.compile_set s.elem_ 0] } := by
      simp [Compile, hc, hfail, hset]
    refine ⟨by rw [hC], by rw [hC], ?_, ?_⟩
    · rw [hC]
      exact hC
    · rw [hC]
      show (Compile E s).calls = _
      rw [hC]

/-! ## The index list of a collect-all Match -/

theorem Ascending.mono {v : List Int} {i j : Nat} (h : Ascending v i) (hij : i ≤ j) :
    Ascending v j := by
  refine ⟨h.1, fun x hx => ⟨(h.2 x hx).1, ?_⟩⟩
  have := (h.2 x hx).2
  omega

theorem Ascending.push {v : List Int} {i : Nat} (h : Ascending v i) :
    Ascending (v ++ [(i : Int)]) (i + 1) := by
  constructor
  · rw [List.pairwise_append]
    refine ⟨h.1, List.pairwise_singleton _ _, ?_⟩
    intro a ha b hb
    simp only [List.mem_singleton] at hb
    subst hb
    exact (h.2 a ha).2
  · intro x hx
    simp only [List.mem_append, List.mem_singleton] at hx
    rcases hx with hx | hx
    · have := h.2 x hx
      omega
    · subst hx
      omega

theorem pushMatches_ascending (matched : Nat → Bool) :
    ∀ (k i : Nat) (v : List Int), Ascending v i →
      Ascending (pushMatches matched k i v) (i + k) := by
  intro k
  induction k with
  | zero => intro i v h; simpa [pushMatches] using h
  | succ k ih =>
      intro i v h
      simp only [pushMatches]
      have hstep : Ascending (if matched i then v ++ [(i : Int)] else v) (i + 1) := by
        split
        · exact h.push
        · exact h.mono (by omega)
      have := ih (i + 1) _ hstep
      have e : i + 1 + k = i + (k + 1) := by omega
      rw [e] at this
      exact this

theorem pushFullMatches_ascending (E : Engine R H) (matched : Nat → Bool) (haystack : Bytes) :
    ∀ (elems : List Bytes) (i : Nat) (v : List Int) (calls : List EngineCall),
      (∀ p ∈ elems, (E.rure_compile_must (c_str p)).isSome = true) → Ascending v i →
      ∃ w c, pushFullMatches E matched haystack elems i v calls = Outcome.returned (w, c) ∧
        Ascending w (i + elems.length) := by
  intro elems
  induction elems with
  | nil =>
      intro i v calls _ h
      exact ⟨v, calls, rfl, by simpa using h⟩
  | cons first elems ih =>
      intro i v calls hmust h
      have hrest : ∀ p ∈ elems, (E.rure_compile_must (c_str p)).isSome = true :=
        fun p hp => hmust p (List.mem_cons_of_mem _ hp)
      have e : i + 1 + elems.length = i + (first :: elems).length := by
        simp only [List.length_cons]; omega
      simp only [pushFullMatches]
      split
      · have hfirst := hmust first (List.mem_cons_self _ _)
        cases hm : E.rure_compile_must (c_str first) with
        | none => simp [hm] at hfirst
        | some re =>
            simp only
            split
            · obtain ⟨w, c, hw, hasc⟩ := ih (i + 1) (v ++ [(i : Int)]) _ hrest h.push
              exact ⟨w, c, hw, e ▸ hasc⟩
            · obtain ⟨w, c, hw, hasc⟩ := ih (i + 1) v _ hrest (h.mono (by omega))
              exact ⟨w, c, hw, e ▸ hasc⟩
      · obtain ⟨w, c, hw, hasc⟩ := ih (i + 1) v calls hrest (h.mono (by omega))
        exact ⟨w, c, hw, e ▸ hasc⟩

theorem Ascending.nil (i : Nat) : Ascending [] i := by
  constructor
  · exact List.Pairwise.nil
  · intro x hx; cases hx

/-- C7: on a compiled set (flag set, handle present, the engine writing no more
flags than the set has patterns and, under ANCHOR_BOTH, the must-succeed recompile
of every stored pattern succeeding), Match in collect-all mode returns, and the
index list it leaves in the vector is strictly ascending with every index at
least 0 and smaller than the number of stored patterns, for every anchor, text,
engine and prior stack content. -/
theorem match_indices_ascending (E : Engine R H) (s : Set H) (re : H) (text : StringPiece)
    (v : List Int) (error_info : Option ErrorInfo) (stack : Nat → Bool)
    (hc : s.compiled_ = true) (hp : s.prog_ = some re)
    (hlen : (E.rure_set_matches re text.data_cstr).2.length ≤ s.elem_.length)
    (hmust : s.anchor_ = Anchor.ANCHOR_BOTH →
      ∀ p ∈ s.elem_, (E.rure_compile_must (c_str p)).isSome = true) :
    ∃ r w, Match E s text (some v) error_info stack = Outcome.returned r ∧
      r.v = some w ∧ w.Pairwise (fun a b => a < b) ∧
      ∀ x ∈ w, 0 ≤ x ∧ x < (s.elem_.length : Int) := by
  have hlen2 : ¬ s.elem_.length < (E.rure_set_matches re text.data_cstr).2.length := by omega
  have hplain : ∃ r w, matchPlain E s re text.data_cstr (some v) error_info stack =
      Outcome.returned r ∧ r.v = some w ∧ Ascending w s.elem_.length := by
    simp only [matchPlain, hlen2, if_false]
    split
    · exact ⟨_, [], rfl, rfl, Ascending.nil _⟩
    · refine ⟨_, _, rfl, rfl, ?_⟩
      have := pushMatches_ascending (matchesArray (E.rure_set_matches re text.data_cstr).2 stack)
        s.elem_.length 0 [] (Ascending.nil 0)
      simpa using this
  have hboth : s.anchor_ = Anchor.ANCHOR_BOTH →
      ∃ r w, matchBoth E s re text.data_cstr (some v) error_info stack =
        Outcome.returned r ∧ r.v = some w ∧ Ascending w s.elem_.length := by
    intro ha
    simp only [matchBoth, hlen2, if_false]
    split
    · exact ⟨_, [], rfl, rfl, Ascending.nil _⟩
    · obtain ⟨w, c, hw, hasc⟩ := pushFullMatches_ascending E
        (matchesArray (E.rure_set_matches re text.data_cstr).2 stack) text.data_cstr
        s.elem_ 0 [] [EngineCall.set_matches text.data_cstr] (hmust ha) (Ascending.nil 0)
      rw [hw]
      refine ⟨_, w, rfl, rfl, ?_⟩
      simpa using hasc
  have hmain : ∃ r w, Match E s text (some v) error_info stack = Outcome.returned r ∧
      r.v = some w ∧ Ascending w s.elem_.length := by
    simp only [Match, hc, hp, Bool.not_true, Bool.false_eq_true, if_false]
    cases ha : s.anchor_ with
    | UNANCHORED => exact hplain
    | ANCHOR_START =>
        simp only [matchStart_eq_matchPlain]
        exact hplain
    | ANCHOR_BOTH => exact hboth ha
  obtain ⟨r, w, hr, hv, hasc⟩ := hmain
  exact ⟨r, w, hr, hv, hasc.1, hasc.2⟩

/-! ## What the loops compute -/

theorem pushMatches_eq (matched : Nat → Bool) :
    ∀ (k i : Nat) (v : List Int),
      pushMatches matched k i v =
        v ++ ((List.range' i k).filter matched).map (fun j : Nat => (j : Int)) := by
  intro k
  induction k with
  | zero => intro i v; simp [pushMatches]
  | succ k ih =>
      intro i v
      simp only [pushMatches, ih, List.range'_succ, List.filter_cons]
      split <;> simp

theorem pushFullMatches_eq (E : Engine R H) (matched : Nat → Bool) (haystack : Bytes) :
    ∀ (elems : List Bytes) (i : Nat) (v : List Int) (calls : List EngineCall)
      (w : List Int) (c : List EngineCall),
      pushFullMatches E matched haystack elems i v calls = Outcome.returned (w, c) →
      w = v ++ ((elems.enumFrom i).filter (keepsFull E matched haystack)).map
        (fun entry => (entry.1 : Int)) := by
  intro elems
  induction elems with
  | nil =>
      intro i v calls w c h
      simp only [pushFullMatches, Outcome.returned.injEq, Prod.mk.injEq] at h
      simp [h.1]
  | cons first elems ih =>
      intro i v calls w c h
      simp only [pushFullMatches] at h
      by_cases hm : matched i = true
      · simp only [hm, if_true] at h
        cases hre : E.rure_compile_must (c_str first) with
        | none => simp [hre] at h
        | some re =>
            simp only [hre] at h
            by_cases hf : fullSpan (E.rure_find re haystack) haystack = true
            · simp only [hf, if_true] at h
              have := ih _ _ _ _ _ h
              simp [this, List.enumFrom_cons, List.filter_cons, keepsFull, hm, hre, hf]
            · simp only [hf, if_false] at h
              have := ih _ _ _ _ _ h
              simp [this, List.enumFrom_cons, List.filter_cons, keepsFull, hm, hre, hf]
      · simp only [hm, if_false] at h
        have := ih _ _ _ _ _ h
        simp [this, List.enumFrom_cons, List.filter_cons, keepsFull, hm]

/-- On a compiled UNANCHORED set whose engine writes one flag per stored pattern and
returns true exactly when some flag is set, Match in collect-all mode fills the
vector with exactly the flagged indices the engine's which-match reports for the C
string at `text.data()`, and Match in boolean mode returns the engine's is-match
on that C string. -/
theorem match_unanchored_on_c_string (E : Engine R H) (s : Set H) (re : H)
    (text : StringPiece) (v : List Int) (error_info : Option ErrorInfo) (stack : Nat → Bool)
    (hc : s.compiled_ = true) (hp : s.prog_ = some re) (ha : s.anchor_ = Anchor.UNANCHORED)
    (hlen : (E.rure_set_matches re text.data_cstr).2.length = s.elem_.length)
    (hany : (E.rure_set_matches re text.data_cstr).1 =
      (E.rure_set_matches re text.data_cstr).2.any id) :
    Match E s text (some v) error_info stack =
      Outcome.returned
        { ret := (E.rure_set_matches re text.data_cstr).1
          v := some (((List.range s.elem_.length).filter
            (fun i => (E.rure_set_matches re text.data_cstr).2.getD i false)).map
              (fun j : Nat => (j : Int)))
          error_info := error_info
          calls := [EngineCall.set_matches text.data_cstr] } ∧
    Match E s text none error_info stack =
      Outcome.returned
        { ret := E.rure_set_is_match re text.data_cstr
          v := none
          error_info := error_info
          calls := [EngineCall.set_is_match text.data_cstr] } := by
  have hfilter : ∀ flags : List Bool, flags.length = s.elem_.length →
      (List.range s.elem_.length).filter (matchesArray flags stack) =
        (List.range s.elem_.length).filter (fun i => flags.getD i false) := by
    intro flags hl
    apply List.filter_congr
    intro i hi
    have hi2 : i < flags.length := by
      rw [hl]; exact List.mem_range.mp hi
    simp [matchesArray, List.getD_eq_getElem?_getD, List.getElem?_eq_getElem hi2]
  constructor
  · simp only [Match, hc, hp, ha, matchPlain, hlen, Nat.lt_irrefl, Bool.not_true,
      Bool.false_eq_true, if_false]
    cases hres : (E.rure_set_matches re text.data_cstr).1
    · have hnone : ∀ i ∈ List.range s.elem_.length,
          ¬ ((E.rure_set_matches re text.data_cstr).2.getD i false = true) := by
        intro i hi hget
        have hi2 : i < (E.rure_set_matches re text.data_cstr).2.length := by
          rw [hlen]; exact List.mem_range.mp hi
        rw [hres] at hany
        have hall := List.any_eq_false.mp hany.symm
          ((E.rure_set_matches re text.data_cstr).2.get ⟨i, hi2⟩) (List.get_mem _ _ _)
        simp [List.getD_eq_getElem?_getD, List.getElem?_eq_getElem hi2] at hget
        simp [hget] at hall
      have hempty : (List.range s.elem_.length).filter
          (fun i => (E.rure_set_matches re text.data_cstr).2.getD i false) = [] :=
        List.filter_eq_nil_iff.mpr hnone
      rw [hempty]
      simp
    · rw [← hfilter _ hlen]
      simp [pushMatches_eq, List.range_eq_range']
  · simp [Match, hc, hp, ha, matchPlain]

theorem fullSpan_some (m : Nat × Nat) (haystack : Bytes) :
    fullSpan (some m) haystack = true ↔ m = (0, haystack.length) := by
  obtain ⟨a, b⟩ := m
  simp [fullSpan]

theorem mem_kept_indices (E : Engine R H) (matched : Nat → Bool) (haystack : Bytes)
    (elems : List Bytes) (i : Nat) (hi : i < elems.length) :
    (i : Int) ∈ ((elems.enumFrom 0).filter (keepsFull E matched haystack)).map
        (fun entry => (entry.1 : Int)) ↔
      keepsFull E matched haystack (i, elems.get ⟨i, hi⟩) = true := by
  simp only [List.mem_map, List.mem_filter]
  constructor
  · rintro ⟨⟨j, p⟩, ⟨hmem, hkeep⟩, hij⟩
    have hj : j = i := by simpa using hij
    subst hj
    have hp := List.mk_mem_enumFrom_iff_le_and_getElem?_sub.mp hmem
    have hp2 : elems[j]? = some p := by simpa using hp.2
    rw [List.getElem?_eq_getElem hi] at hp2
    have hp3 : elems.get ⟨j, hi⟩ = p := by simpa using hp2
    rw [hp3]
    exact hkeep
  · intro hkeep
    refine ⟨(i, elems.get ⟨i, hi⟩), ⟨?_, hkeep⟩, rfl⟩
    apply List.mk_mem_enumFrom_iff_le_and_getElem?_sub.mpr
    simp [List.getElem?_eq_getElem hi]

/-- On a compiled ANCHOR_BOTH set over an engine that writes one flag per stored
pattern, returns true exactly when some flag is set, flags a pattern exactly when
the recompiled pattern has a match in the text, and recompiles every stored
pattern, Match in collect-all mode returns and reports index i exactly when the
first match of pattern i in the C string at `text.data()` starts at 0 and ends at
that C string's length. -/
theorem match_anchor_both_on_c_string (E : Engine R H) (s : Set H) (re : H)
    (text : StringPiece) (v : List Int) (error_info : Option ErrorInfo) (stack : Nat → Bool)
    (hc : s.compiled_ = true) (hp : s.prog_ = some re) (ha : s.anchor_ = Anchor.ANCHOR_BOTH)
    (hlen : (E.rure_set_matches re text.data_cstr).2.length = s.elem_.length)
    (hany : (E.rure_set_matches re text.data_cstr).1 =
      (E.rure_set_matches re text.data_cstr).2.any id)
    (hmust : ∀ p ∈ s.elem_, (E.rure_compile_must (c_str p)).isSome = true)
    (hcoh : ∀ i (hi : i < s.elem_.length) rx,
      E.rure_compile_must (c_str (s.elem_.get ⟨i, hi⟩)) = some rx →
        ((E.rure_set_matches re text.data_cstr).2.getD i false = true ↔
          (E.rure_find rx text.data_cstr).isSome = true)) :
    ∃ r w, Match E s text (some v) error_info stack = Outcome.returned r ∧ r.v = some w ∧
      ∀ i (hi : i < s.elem_.length),
        (i : Int) ∈ w ↔
          ∃ rx, E.rure_compile_must (c_str (s.elem_.get ⟨i, hi⟩)) = some rx ∧
            E.rure_find rx text.data_cstr = some (0, text.data_cstr.length) := by
  have harr : ∀ i, i < s.elem_.length →
      matchesArray (E.rure_set_matches re text.data_cstr).2 stack i =
        (E.rure_set_matches re text.data_cstr).2.getD i false := by
    intro i hi
    have hi2 : i < (E.rure_set_matches re text.data_cstr).2.length := by rw [hlen]; exact hi
    simp [matchesArray, List.getD_eq_getElem?_getD, List.getElem?_eq_getElem hi2]
  have hkeep : ∀ i (hi : i < s.elem_.length),
      keepsFull E (matchesArray (E.rure_set_matches re text.data_cstr).2 stack) text.data_cstr
          (i, s.elem_.get ⟨i, hi⟩) = true ↔
        ∃ rx, E.rure_compile_must (c_str (s.elem_.get ⟨i, hi⟩)) = some rx ∧
          E.rure_find rx text.data_cstr = some (0, text.data_cstr.length) := by
    intro i hi
    have hsome := hmust (s.elem_.get ⟨i, hi⟩) (List.get_mem _ _ _)
    cases hrx : E.rure_compile_must (c_str (s.elem_.get ⟨i, hi⟩)) with
    | none =>
        rw [hrx] at hsome
        cases hsome
    | some rx =>
        have hflag := hcoh i hi rx hrx
        have hk : keepsFull E (matchesArray (E.rure_set_matches re text.data_cstr).2 stack)
            text.data_cstr (i, s.elem_.get ⟨i, hi⟩) =
            ((E.rure_set_matches re text.data_cstr).2.getD i false &&
              fullSpan (E.rure_find rx text.data_cstr) text.data_cstr) := by
          simp only [keepsFull, hrx, harr i hi]
        rw [hk]
        generalize (E.rure_set_matches re text.data_cstr).2.getD i false = b at hflag
        cases hfind : E.rure_find rx text.data_cstr with
        | none =>
            rw [hfind] at hflag
            have hb : b = false := by
              cases b
              · rfl
              · simp at hflag
            subst hb
            simp [hfind]
        | some m =>
            rw [hfind] at hflag
            have hb : b = true := by simpa using hflag
            subst hb
            simp [hfind, fullSpan_some]
  simp only [Match, hc, hp, ha, matchBoth, hlen, Nat.lt_irrefl, Bool.not_true,
    Bool.false_eq_true, if_false]
  cases hres : (E.rure_set_matches re text.data_cstr).1
  · simp only [Bool.not_false, if_true]
    refine ⟨_, [], rfl, rfl, ?_⟩
    intro i hi
    constructor
    · intro h; cases h
    · rintro ⟨rx, hrx, hfind⟩
      exfalso
      have hflag := (hcoh i hi rx hrx).mpr (by simp [hfind])
      have hi2 : i < (E.rure_set_matches re text.data_cstr).2.length := by rw [hlen]; exact hi
      rw [hres] at hany
      have hall := List.any_eq_false.mp hany.symm
        ((E.rure_set_matches re text.data_cstr).2.get ⟨i, hi2⟩) (List.get_mem _ _ _)
      simp [List.getD_eq_getElem?_getD, List.getElem?_eq_getElem hi2] at hflag
      simp [hflag] at hall
  · obtain ⟨w, c, hw, _⟩ := pushFullMatches_ascending E
      (matchesArray (E.rure_set_matches re text.data_cstr).2 stack) text.data_cstr
      s.elem_ 0 [] [EngineCall.set_matches text.data_cstr] hmust (Ascending.nil 0)
    have hweq := pushFullMatches_eq E _ _ _ _ _ _ _ _ hw
    simp only [Bool.not_true, Bool.false_eq_true, if_false, hw]
    refine ⟨_, w, rfl, rfl, ?_⟩
    intro i hi
    rw [hweq, List.nil_append, mem_kept_indices E _ _ _ i hi]
    exact hkeep i hi

/-- C8: for a set with no patterns on which Compile succeeded, with an engine
whose empty combined matcher reports no match and writes no flag, Match in
boolean mode returns false and Match in collect-all mode returns false with the
vector empty, for every anchor and text, and error_info is left as passed. -/
theorem empty_set_matches_nothing (E : Engine R H) (options : Options) (anchor : Anchor)
    (re : H) (text : StringPiece) (v : List Int) (error_info : Option ErrorInfo)
    (stack : Nat → Bool)
    (hre : E.rure_compile_set [] 0 = some re)
    (his : ∀ t, E.rure_set_is_match re t = false)
    (hms : ∀ t, E.rure_set_matches re t = (false, [])) :
    (Compile E (Set.new H options anchor)).ret = true ∧
    (Compile E (Set.new H options anchor)).set.elem_ = [] ∧
    (∃ r, Match E (Compile E (Set.new H options anchor)).set text none error_info stack =
        Outcome.returned r ∧ r.ret = false ∧ r.v = none ∧ r.error_info = error_info) ∧
    (∃ r, Match E (Compile E (Set.new H options anchor)).set text (some v) error_info stack =
        Outcome.returned r ∧ r.ret = false ∧ r.v = some [] ∧ r.error_info = error_info) := by
  have hC : Compile E (Set.new H options anchor) =
      { ret := true
        set := { Set.new H options anchor with compiled_ := true, prog_ := some re }
        calls := [EngineCall.compile_set [] 0] } := by
    simp [Compile, Set.new, hre]
  rw [hC]
  refine ⟨rfl, rfl, ?_, ?_⟩
  · cases anchor <;>
      simp [Match, Set.new, matchPlain, matchStart, matchBoth, his, hms]
  · cases anchor <;>
      simp [Match, Set.new, matchPlain, matchStart, matchBoth, his, hms]

/-! ## ANCHOR_START and UNANCHORED -/

theorem Add_with_anchor (E : Engine R H) (s : Set H) (a : Anchor) (pattern : StringPiece)
    (error : Option String) :
    Add E { s with anchor_ := a } pattern error =
      { Add E s pattern error with set := { (Add E s pattern error).set with anchor_ := a } } := by
  unfold Add
  simp only
  split <;> rfl

theorem addAll_with_anchor (E : Engine R H) (a : Anchor)
    (calls : List (StringPiece × Option String)) :
    ∀ s : Set H,
      addAll E { s with anchor_ := a } calls =
        ((addAll E s calls).1, { (addAll E s calls).2 with anchor_ := a }) := by
  induction calls with
  | nil => intro s; rfl
  | cons call calls ih =>
      intro s
      simp only [addAll, Add_with_anchor, ih]

theorem Compile_with_anchor (E : Engine R H) (s : Set H) (a : Anchor) :
    (Compile E { s with anchor_ := a }).set = { (Compile E s).set with anchor_ := a } := by
  unfold Compile
  simp only
  split
  · rfl
  · split <;> rfl

theorem Match_start_eq_unanchored (E : Engine R H) (s : Set H) (text : StringPiece)
    (v : Option (List Int)) (error_info : Option ErrorInfo) (stack : Nat → Bool) :
    Match E { s with anchor_ := Anchor.ANCHOR_START } text v error_info stack =
      Match E { s with anchor_ := Anchor.UNANCHORED } text v error_info stack := by
  unfold Match
  simp only
  split
  · rfl
  · split
    · rfl
    · exact matchStart_eq_matchPlain _ _ _ _ _ _ _

/-- C11: Match treats ANCHOR_START exactly like UNANCHORED.  A set and its copy
with the other anchor give the same outcome of Match (boolean, vector, error_info
and engine calls) in both modes, and so do two sets built from the same Add calls
and Compile; on a compiled ANCHOR_START set the boolean mode returns the engine's
combined is-match and the collect-all mode returns, each with one engine call,
the combined query, and no per-pattern recompile or find. -/
theorem anchor_start_like_unanchored (E : Engine R H) (s : Set H) (re : H)
    (text : StringPiece) (v : Option (List Int)) (w : List Int)
    (error_info : Option ErrorInfo) (stack : Nat → Bool) :
    Match E { s with anchor_ := Anchor.ANCHOR_START } text v error_info stack =
      Match E { s with anchor_ := Anchor.UNANCHORED } text v error_info stack ∧
    (∀ options calls,
      Match E (Compile E (addAll E (Set.new H options Anchor.ANCHOR_START) calls).2).set
          text v error_info stack =
        Match E (Compile E (addAll E (Set.new H options Anchor.UNANCHORED) calls).2).set
          text v error_info stack) ∧
    (s.compiled_ = true → s.prog_ = some re → s.anchor_ = Anchor.ANCHOR_START →
      Match E s text none error_info stack =
        Outcome.returned
          { ret := E.rure_set_is_match re text.data_cstr
            v := none
            error_info := error_info
            calls := [EngineCall.set_is_match text.data_cstr] }) ∧
    (s.compiled_ = true → s.prog_ = some re → s.anchor_ = Anchor.ANCHOR_START →
      (E.rure_set_matches re text.data_cstr).2.length ≤ s.elem_.length →
      ∃ r, Match E s text (some w) error_info stack = Outcome.returned r ∧
        r.ret = (E.rure_set_matches re text.data_cstr).1 ∧
        r.calls = [EngineCall.set_matches text.data_cstr] ∧
        r.v = some (if (E.rure_set_matches re text.data_cstr).1 then
          pushMatches (matchesArray (E.rure_set_matches re text.data_cstr).2 stack)
            s.elem_.length 0 []
          else [])) := by
  refine ⟨Match_start_eq_unanchored E s text v error_info stack, ?_, ?_, ?_⟩
  · intro options calls
    have hnew : Set.new H options Anchor.ANCHOR_START =
        { Set.new H options Anchor.UNANCHORED with anchor_ := Anchor.ANCHOR_START } := rfl
    have hun : ∀ t : Set H, t.anchor_ = Anchor.UNANCHORED →
        ({ t with anchor_ := Anchor.UNANCHORED } : Set H) = t := by
      intro t ht
      cases t
      simp_all
    rw [hnew, addAll_with_anchor, Compile_with_anchor, Match_start_eq_unanchored]
    rw [hun]
    rw [(anchor_unchanged E _ (StringPiece.ofBytes []) none).2,
      (addAll_spec E calls _).2.2.2.1]
    rfl
  · intro hc hp ha
    simp [Match, hc, hp, ha, matchStart]
  · intro hc hp ha hlen
    have hlen2 : ¬ s.elem_.length < (E.rure_set_matches re text.data_cstr).2.length := by omega
    simp only [Match, hc, hp, ha, matchStart, hlen2, Bool.not_true, Bool.false_eq_true,
      if_false]
    cases hres : (E.rure_set_matches re text.data_cstr).1
    · exact ⟨_, rfl, rfl, rfl, rfl⟩
    · exact ⟨_, rfl, rfl, rfl, rfl⟩

/-! ## ANCHOR_BOTH against UNANCHORED -/

theorem kept_sublist_flagged (E : Engine R H) (kept flagged : Nat → Bool) (haystack : Bytes) :
    ∀ (elems : List Bytes) (i : Nat),
      (∀ j, i ≤ j → j < i + elems.length → kept j = true → flagged j = true) →
      List.Sublist
        (((elems.enumFrom i).filter (keepsFull E kept haystack)).map
          (fun entry => (entry.1 : Int)))
        (((List.range' i elems.length).filter flagged).map (fun j : Nat => (j : Int))) := by
  intro elems
  induction elems with
  | nil => intro i _; simp
  | cons first elems ih =>
      intro i hagree
      have hrest : ∀ j, i + 1 ≤ j → j < i + 1 + elems.length → kept j = true →
          flagged j = true := by
        intro j h1 h2 h3
        apply hagree j (by omega) _ h3
        simp only [List.length_cons]
        omega
      have hsub := ih (i + 1) hrest
      simp only [List.enumFrom_cons, List.length_cons, List.range'_succ, List.filter_cons]
      by_cases hk : keepsFull E kept haystack (i, first) = true
      · have hkept : kept i = true := by
          simp only [keepsFull, Bool.and_eq_true] at hk
          exact hk.1
        have hflag : flagged i = true :=
          hagree i (Nat.le_refl i) (by simp only [List.length_cons]; omega) hkept
        simp only [hk, hflag, if_true, List.map_cons]
        exact List.Sublist.cons₂ _ hsub
      · simp only [hk, if_false]
        by_cases hflag : flagged i = true
        · simp only [hflag, if_true, List.map_cons]
          exact List.Sublist.cons _ hsub
        · simp only [hflag, if_false]
          exact hsub

/-- C12: on a compiled set whose engine writes one flag per stored pattern and
whose stored patterns all recompile, the index list Match leaves in collect-all
mode under ANCHOR_BOTH is a sublist of the one it leaves under UNANCHORED for the
same patterns, combined matcher and text: every index the ANCHOR_BOTH filter
keeps is one the engine's which-match flagged. -/
theorem anchor_both_sublist_of_unanchored (E : Engine R H) (s : Set H) (re : H)
    (text : StringPiece) (v1 v2 : List Int) (error_info : Option ErrorInfo)
    (stackB stackU : Nat → Bool)
    (hc : s.compiled_ = true) (hp : s.prog_ = some re)
    (hlen : (E.rure_set_matches re text.data_cstr).2.length = s.elem_.length)
    (hmust : ∀ p ∈ s.elem_, (E.rure_compile_must (c_str p)).isSome = true) :
    ∃ rb ru wb wu,
      Match E { s with anchor_ := Anchor.ANCHOR_BOTH } text (some v1) error_info stackB =
        Outcome.returned rb ∧
      Match E { s with anchor_ := Anchor.UNANCHORED } text (some v2) error_info stackU =
        Outcome.returned ru ∧
      rb.v = some wb ∧ ru.v = some wu ∧ List.Sublist wb wu ∧ ∀ x ∈ wb, x ∈ wu := by
  have hagree : ∀ j, 0 ≤ j → j < 0 + s.elem_.length →
      matchesArray (E.rure_set_matches re text.data_cstr).2 stackB j = true →
      matchesArray (E.rure_set_matches re text.data_cstr).2 stackU j = true := by
    intro j _ hj hb
    have hj2 : j < (E.rure_set_matches re text.data_cstr).2.length := by rw [hlen]; omega
    simpa [matchesArray, List.getD_eq_getElem?_getD, List.getElem?_eq_getElem hj2] using hb
  simp only [Match, hc, hp, matchBoth, matchPlain, hlen, Nat.lt_irrefl, Bool.not_true,
    Bool.false_eq_true, if_false]
  cases hres : (E.rure_set_matches re text.data_cstr).1
  · simp only [Bool.not_false, if_true]
    exact ⟨_, _, [], [], rfl, rfl, rfl, rfl, List.Sublist.refl _, fun x hx => hx⟩
  · obtain ⟨wb, c, hw, _⟩ := pushFullMatches_ascending E
      (matchesArray (E.rure_set_matches re text.data_cstr).2 stackB) text.data_cstr
      s.elem_ 0 [] [EngineCall.set_matches text.data_cstr] hmust (Ascending.nil 0)
    have hweq := pushFullMatches_eq E _ _ _ _ _ _ _ _ hw
    simp only [Bool.not_true, Bool.false_eq_true, if_false, hw]
    have hsub : List.Sublist wb
        (pushMatches (matchesArray (E.rure_set_matches re text.data_cstr).2 stackU)
          s.elem_.length 0 []) := by
      rw [hweq, pushMatches_eq, List.nil_append, List.nil_append]
      exact kept_sublist_flagged E _ _ _ s.elem_ 0 hagree
    exact ⟨_, _, wb, _, rfl, rfl, rfl, rfl, hsub, fun x hx => hsub.subset hx⟩

/-! ## What Compile submits -/

theorem filter_getElem?_countP {α : Type} (p : α → Bool) :
    ∀ (l : List α) (j : Nat) (hj : j < l.length), p (l.get ⟨j, hj⟩) = true →
      (l.filter p)[(l.take j).countP p]? = some (l.get ⟨j, hj⟩) := by
  intro l
  induction l with
  | nil => intro j hj; simp at hj
  | cons x xs ih =>
      intro j hj hp
      cases j with
      | zero =>
          have hx : p x = true := by simpa using hp
          simp [List.filter_cons, hx]
      | succ j =>
          have hj2 : j < xs.length := by simpa using hj
          have hp2 : p (xs.get ⟨j, hj2⟩) = true := by simpa using hp
          have := ih j hj2 hp2
          by_cases hx : p x = true
          · simp only [List.filter_cons, hx, if_true, List.take_succ_cons, List.countP_cons,
              List.getElem?_cons_succ, List.get_eq_getElem, List.getElem_cons_succ]
            simpa using this
          · simp only [List.filter_cons, hx, if_false, List.take_succ_cons, List.countP_cons,
              List.get_eq_getElem, List.getElem_cons_succ]
            simpa using this

/-- C13: on a set whose compiled flag is false, Compile makes one engine call, the
combined compile of exactly the stored strings (whole strings, in order, flags 0);
for a set built by Add calls from a fresh one the submitted list is the accepted
patterns in call order, and the pattern whose Add returned index k stands at
position k; when the engine returns a handle Compile returns true, stores it and
sets the flag, leaving the patterns as they were, and when the engine fails
Compile returns false, leaves the handle as it was (null on a set that never
compiled) and leaves the flag false. -/
theorem compile_submits_stored_patterns (E : Engine R H) (s : Set H) (options : Options)
    (anchor : Anchor) (calls : List (StringPiece × Option String)) :
    (s.compiled_ = false → (Compile E s).calls = [EngineCall.compile_set s.elem_ 0]) ∧
    (Compile E (addAll E (Set.new H options anchor) calls).2).calls =
      [EngineCall.compile_set
        ((calls.filter (fun c => accepted E c.1)).map (fun c => c.1.as_string)) 0] ∧
    (∀ j (hj : j < calls.length), accepted E (calls.get ⟨j, hj⟩).1 = true →
      ∃ k : Nat,
        (addAll E (Set.new H options anchor) calls).1[j]? = some (k : Int) ∧
        (addAll E (Set.new H options anchor) calls).2.elem_[k]? =
          some (calls.get ⟨j, hj⟩).1.as_string) ∧
    (∀ re, s.compiled_ = false → E.rure_compile_set s.elem_ 0 = some re →
      (Compile E s).ret = true ∧ (Compile E s).set.prog_ = some re ∧
      (Compile E s).set.compiled_ = true ∧ (Compile E s).set.elem_ = s.elem_) ∧
    (s.compiled_ = false → E.rure_compile_set s.elem_ 0 = none →
      (Compile E s).ret = false ∧ (Compile E s).set.prog_ = s.prog_ ∧
      (Compile E s).set.compiled_ = false ∧ (Compile E s).set.elem_ = s.elem_) ∧
    (E.rure_compile_set (addAll E (Set.new H options anchor) calls).2.elem_ 0 = none →
      (Compile E (addAll E (Set.new H options anchor) calls).2).ret = false ∧
      (Compile E (addAll E (Set.new H options anchor) calls).2).set.prog_ = none) := by
  have hspec := addAll_spec E calls (Set.new H options anchor)
  have hflag : (addAll E (Set.new H options anchor) calls).2.compiled_ = false := by
    rw [hspec.2.2.1]; rfl
  have helem : (addAll E (Set.new H options anchor) calls).2.elem_ =
      (calls.filter (fun c => accepted E c.1)).map (fun c => c.1.as_string) := by
    simpa [Set.new] using hspec.1
  have hcalls : ∀ t : Set H, t.compiled_ = false →
      (Compile E t).calls = [EngineCall.compile_set t.elem_ 0] := by
    intro t ht
    unfold Compile
    simp only [ht, Bool.false_eq_true, if_false]
    split <;> rfl
  refine ⟨hcalls s, ?_, ?_, ?_, ?_, ?_⟩
  · rw [hcalls _ hflag, helem]
  · intro j hj hacc
    refine ⟨(calls.take j).countP (fun c => accepted E c.1), ?_, ?_⟩
    · have := hspec.2.2.2.2.2.2.2 j hj
      rw [this, if_pos hacc]
      simp [Set.new]
    · rw [helem, List.getElem?_map,
        filter_getElem?_countP (fun c => accepted E c.1) calls j hj hacc]
      rfl
  · intro re hc hre
    simp [Compile, hc, hre]
  · intro hc hre
    simp [Compile, hc, hre]
  · intro hre
    have hprog : (addAll E (Set.new H options anchor) calls).2.prog_ = none := by
      rw [hspec.2.2.2.2.1]; rfl
    simp [Compile, hflag, hre, hprog]

/-! ## The two query modes -/

theorem anyFullMatch_eq (E : Engine R H) (matched : Nat → Bool) (haystack : Bytes) :
    ∀ (elems : List Bytes) (i : Nat) (calls : List EngineCall),
      (∀ p ∈ elems, (E.rure_compile_must (c_str p)).isSome = true) →
      ∃ c, anyFullMatch E matched haystack elems i calls =
        Outcome.returned ((elems.enumFrom i).any (keepsFull E matched haystack), c) := by
  intro elems
  induction elems with
  | nil => intro i calls _; exact ⟨calls, rfl⟩
  | cons first elems ih =>
      intro i calls hmust
      have hrest : ∀ p ∈ elems, (E.rure_compile_must (c_str p)).isSome = true :=
        fun p hp => hmust p (List.mem_cons_of_mem _ hp)
      have hfirst := hmust first (List.mem_cons_self _ _)
      simp only [anyFullMatch, List.enumFrom_cons, List.any_cons, keepsFull]
      by_cases hm : matched i = true
      · cases hre : E.rure_compile_must (c_str first) with
        | none =>
            rw [hre] at hfirst
            cases hfirst
        | some re =>
            by_cases hf : fullSpan (E.rure_find re haystack) haystack = true
            · simp only [hm, hf, if_true, Bool.and_self, Bool.true_or]
              exact ⟨_, rfl⟩
            · obtain ⟨c, hc⟩ := ih (i + 1)
                (calls ++ [EngineCall.compile_must (c_str first), EngineCall.find haystack]) hrest
              simp only [hm, hf, if_true, if_false, hc, eq_false_of_ne_true hf,
                Bool.and_false, Bool.false_or]
              exact ⟨c, rfl⟩
      · obtain ⟨c, hc⟩ := ih (i + 1) calls hrest
        simp only [hm, if_false, hc, eq_false_of_ne_true hm, Bool.false_and, Bool.false_or]
        exact ⟨c, rfl⟩

theorem pushMatches_ne_nil (matched : Nat → Bool) (k i : Nat) (hi : i < k)
    (hm : matched i = true) : pushMatches matched k 0 [] ≠ [] := by
  have hasc : ∀ (n j : Nat) (v : List Int), v ≠ [] → pushMatches matched n j v ≠ [] := by
    intro n
    induction n with
    | zero => intro j v hv; simpa [pushMatches] using hv
    | succ n ih =>
        intro j v hv
        simp only [pushMatches]
        apply ih
        split
        · simp
        · exact hv
  have hgo : ∀ (n j : Nat) (v : List Int), j ≤ i → i < j + n →
      pushMatches matched n j v ≠ [] := by
    intro n
    induction n with
    | zero => intro j v h1 h2; omega
    | succ n ih =>
        intro j v h1 h2
        simp only [pushMatches]
        by_cases hji : j = i
        · subst hji
          apply hasc
          simp [hm]
        · exact ih (j + 1) _ (by omega) (by omega)
  exact hgo k 0 [] (Nat.zero_le i) (by omega)

theorem any_kept_iff_filter_ne_nil (E : Engine R H) (m1 m2 : Nat → Bool) (haystack : Bytes)
    (elems : List Bytes) (hagree : ∀ j, j < elems.length → m1 j = m2 j) :
    (elems.enumFrom 0).any (keepsFull E m1 haystack) = true ↔
      ((elems.enumFrom 0).filter (keepsFull E m2 haystack)).map
        (fun entry => (entry.1 : Int)) ≠ [] := by
  have hk : ∀ x ∈ elems.enumFrom 0, keepsFull E m1 haystack x = keepsFull E m2 haystack x := by
    intro x hx
    have hlt := List.fst_lt_add_of_mem_enumFrom hx
    simp only [keepsFull, hagree x.1 (by omega)]
  rw [List.any_eq_true]
  constructor
  · rintro ⟨x, hx, hkx⟩ hnil
    have hmem : x ∈ (elems.enumFrom 0).filter (keepsFull E m2 haystack) :=
      List.mem_filter.mpr ⟨hx, by rw [← hk x hx]; exact hkx⟩
    have hnil2 : (elems.enumFrom 0).filter (keepsFull E m2 haystack) = [] := by
      simpa using hnil
    rw [hnil2] at hmem
    cases hmem
  · intro hne
    have hne2 : (elems.enumFrom 0).filter (keepsFull E m2 haystack) ≠ [] := by
      intro h
      apply hne
      rw [h]
      rfl
    obtain ⟨x, hx⟩ := List.exists_mem_of_ne_nil _ hne2
    have hx2 := List.mem_filter.mp hx
    exact ⟨x, hx2.1, by rw [hk x hx2.1]; exact hx2.2⟩

/-- C14: on a compiled set whose engine writes one flag per stored pattern, returns
true from which-match exactly when some flag is set and answers is-match the same
way, and (under ANCHOR_BOTH) recompiles every stored pattern, both Match calls
return, and for every anchor and text the boolean mode returns true exactly when
the collect-all mode leaves a non-empty index list, and the collect-all call
returns true exactly when that list is non-empty. -/
theorem query_modes_agree (E : Engine R H) (s : Set H) (re : H) (text : StringPiece)
    (v : List Int) (info1 info2 : Option ErrorInfo) (stackB stackC : Nat → Bool)
    (hc : s.compiled_ = true) (hp : s.prog_ = some re)
    (hlen : (E.rure_set_matches re text.data_cstr).2.length = s.elem_.length)
    (hany : (E.rure_set_matches re text.data_cstr).1 =
      (E.rure_set_matches re text.data_cstr).2.any id)
    (his : E.rure_set_is_match re text.data_cstr =
      (E.rure_set_matches re text.data_cstr).2.any id)
    (hmust : s.anchor_ = Anchor.ANCHOR_BOTH →
      ∀ p ∈ s.elem_, (E.rure_compile_must (c_str p)).isSome = true) :
    ∃ rb rc w,
      Match E s text none info1 stackB = Outcome.returned rb ∧
      Match E s text (some v) info2 stackC = Outcome.returned rc ∧
      rc.v = some w ∧ (rb.ret = true ↔ w ≠ []) ∧ (rc.ret = true ↔ w ≠ []) := by
  have harr : ∀ (stack : Nat → Bool) i, i < s.elem_.length →
      matchesArray (E.rure_set_matches re text.data_cstr).2 stack i =
        (E.rure_set_matches re text.data_cstr).2.getD i false := by
    intro stack i hi
    have hi2 : i < (E.rure_set_matches re text.data_cstr).2.length := by rw [hlen]; exact hi
    simp [matchesArray, List.getD_eq_getElem?_getD, List.getElem?_eq_getElem hi2]
  have hplain : ∃ rb rc w,
      matchPlain E s re text.data_cstr none info1 stackB = Outcome.returned rb ∧
      matchPlain E s re text.data_cstr (some v) info2 stackC = Outcome.returned rc ∧
      rc.v = some w ∧ (rb.ret = true ↔ w ≠ []) ∧ (rc.ret = true ↔ w ≠ []) := by
    simp only [matchPlain, hlen, Nat.lt_irrefl, if_false]
    cases hres : (E.rure_set_matches re text.data_cstr).1
    · refine ⟨_, _, [], rfl, rfl, rfl, ?_, ?_⟩
      · simp only [his, ← hany, hres]
        simp
      · simp
    · have hflag : (E.rure_set_matches re text.data_cstr).2.any id = true := by
        rw [← hany, hres]
      obtain ⟨b, hb, hbt⟩ := List.any_eq_true.mp hflag
      obtain ⟨i, hi, hget⟩ := List.getElem_of_mem hb
      have hi2 : i < s.elem_.length := by rw [← hlen]; exact hi
      have hm : matchesArray (E.rure_set_matches re text.data_cstr).2 stackC i = true := by
        rw [harr stackC i hi2]
        simp only [List.getD_eq_getElem?_getD, List.getElem?_eq_getElem hi, Option.getD_some,
          hget]
        simpa using hbt
      have hne := pushMatches_ne_nil _ s.elem_.length i hi2 hm
      refine ⟨_, _, _, rfl, rfl, rfl, ?_, ?_⟩
      · simp only [his, hflag, true_iff]
        exact hne
      · simp only [true_iff]
        exact hne
  cases ha : s.anchor_ with
  | UNANCHORED =>
      simp only [Match, hc, hp, ha, Bool.not_true, Bool.false_eq_true, if_false]
      exact hplain
  | ANCHOR_START =>
      simp only [Match, hc, hp, ha, Bool.not_true, Bool.false_eq_true, if_false,
        matchStart_eq_matchPlain]
      exact hplain
  | ANCHOR_BOTH =>
      simp only [Match, hc, hp, ha, matchBoth, hlen, Nat.lt_irrefl, Bool.not_true,
        Bool.false_eq_true, if_false]
      cases hres : (E.rure_set_matches re text.data_cstr).1
      · simp only [Bool.not_false, if_true]
        refine ⟨_, _, [], rfl, rfl, rfl, ?_, ?_⟩ <;> simp
      · obtain ⟨cb, hb⟩ := anyFullMatch_eq E
          (matchesArray (E.rure_set_matches re text.data_cstr).2 stackB) text.data_cstr
          s.elem_ 0 [EngineCall.set_matches text.data_cstr] (hmust ha)
        obtain ⟨w, c, hw, _⟩ := pushFullMatches_ascending E
          (matchesArray (E.rure_set_matches re text.data_cstr).2 stackC) text.data_cstr
          s.elem_ 0 [] [EngineCall.set_matches text.data_cstr] (hmust ha) (Ascending.nil 0)
        have hweq := pushFullMatches_eq E _ _ _ _ _ _ _ _ hw
        rw [List.nil_append] at hweq
        simp only [Bool.not_true, Bool.false_eq_true, if_false, hb, hw]
        refine ⟨_, _, w, rfl, rfl, rfl, ?_, ?_⟩
        · simp only
          rw [hweq]
          apply any_kept_iff_filter_ne_nil
          intro j hj
          rw [harr stackB j hj, harr stackC j hj]
        · simp only [decide_eq_true_eq]
          constructor
          · intro h1 h2
            apply h1
            rw [h2]
            rfl
          · intro h1 h2
            apply h1
            exact List.length_eq_zero.mp h2

/-! ## Stored patterns and the recompile in Match -/

theorem c_str_as_string_of_terminated (piece : StringPiece) (h : piece.rest = []) :
    c_str piece.as_string = piece.data_cstr := by
  simp [c_str, StringPiece.as_string, StringPiece.data_cstr, h]

theorem run_elem_origin (E : Engine R H) (calls : List Call) :
    ∀ (s : Set H) (p : Bytes), p ∈ (run E s calls).elem_ →
      p ∈ s.elem_ ∨
        ∃ piece ∈ addedPieces calls, accepted E piece = true ∧ piece.as_string = p := by
  induction calls with
  | nil => intro s p hp; exact Or.inl hp
  | cons call calls ih =>
      intro s p hp
      have hrun : run E s (call :: calls) = run E (step E s call) calls := rfl
      rw [hrun] at hp
      rcases ih _ p hp with h | ⟨piece, hmem, hacc, heq⟩
      · cases call with
        | add pattern error =>
            cases hacc : accepted E pattern
            · have hset := (Add_rejected E s pattern error hacc).2
              simp only [step, hset] at h
              exact Or.inl h
            · have hadd := Add_accepted E s pattern error hacc
              simp only [step, hadd, List.mem_append, List.mem_singleton] at h
              rcases h with h | h
              · exact Or.inl h
              · exact Or.inr ⟨pattern, by simp [addedPieces], hacc, h.symm⟩
        | compile =>
            have helem : (Compile E s).set.elem_ = s.elem_ := by
              unfold Compile
              split
              · rfl
              · split <;> rfl
            simp only [step, helem] at h
            exact Or.inl h
      · refine Or.inr ⟨piece, ?_, hacc, heq⟩
        cases call with
        | add pattern error => simp [addedPieces, hmem]
        | compile => simpa [addedPieces] using hmem

/-- In every state reached from a fresh set by Add and Compile calls whose pieces
end at the NUL of their buffer, with an engine whose must-succeed compile accepts
what its single-pattern compile accepts, the recompile of every stored pattern
succeeds. -/
theorem stored_patterns_recompile (E : Engine R H) (options : Options) (anchor : Anchor)
    (calls : List Call)
    (hdet : ∀ p re, E.rure_compile p E.RURE_DEFAULT_FLAGS = Except.ok re →
      (E.rure_compile_must p).isSome = true)
    (hterm : ∀ piece ∈ addedPieces calls, piece.rest = []) :
    ∀ p ∈ (run E (Set.new H options anchor) calls).elem_,
      (E.rure_compile_must (c_str p)).isSome = true := by
  intro p hp
  rcases run_elem_origin E calls _ p hp with h | ⟨piece, hmem, hacc, heq⟩
  · simp [Set.new] at h
  · rw [← heq, c_str_as_string_of_terminated piece (hterm piece hmem)]
    unfold accepted at hacc
    split at hacc
    · next re hre => exact hdet _ re hre
    · simp at hacc

/-! ## Concrete runs -/

namespace Example

theorem add_indices_in_registration_order_witness :
    2 < [(StringPiece.ofBytes [97], (none : Option String)), (StringPiece.ofBytes [40], some ""),
      (StringPiece.ofBytes [98], none)].length ∧
    (addAll (engine 100) (Set.new (List (List Piece)) { never_capture := false, other := 0 }
      Anchor.UNANCHORED)
      [(StringPiece.ofBytes [97], none), (StringPiece.ofBytes [40], some ""),
        (StringPiece.ofBytes [98], none)]).1 = [0, -1, 1] ∧
    (addAll (engine 100) (Set.new (List (List Piece)) { never_capture := false, other := 0 }
      Anchor.UNANCHORED)
      [(StringPiece.ofBytes [97], none), (StringPiece.ofBytes [40], some ""),
        (StringPiece.ofBytes [98], none)]).1[2]? = some 1 ∧
    (addAll (engine 100) (Set.new (List (List Piece)) { never_capture := false, other := 0 }
      Anchor.UNANCHORED)
      [(StringPiece.ofBytes [97], none), (StringPiece.ofBytes [40], some ""),
        (StringPiece.ofBytes [98], none)]).2.elem_ = [[97], [98]] ∧
    (addAll (engine 100) (Set.new (List (List Piece)) { never_capture := false, other := 0 }
      Anchor.UNANCHORED)
      [(StringPiece.ofBytes [97], none), (StringPiece.ofBytes [40], some ""),
        (StringPiece.ofBytes [98], none)]).2.size_ = 2 :=
  have h := add_indices_in_registration_order (engine 100) { never_capture := false, other := 0 }
    Anchor.UNANCHORED
    [(StringPiece.ofBytes [97], none), (StringPiece.ofBytes [40], some ""),
      (StringPiece.ofBytes [98], none)]
  ⟨by decide, rfl, h.2.1 2 (by decide), h.2.2.1, h.2.2.2.2⟩

theorem add_fails_atomically_witness :
    (engine 100).rure_compile (StringPiece.ofBytes [40]).data_cstr (engine 100).RURE_DEFAULT_FLAGS =
      Except.error "unsupported syntax" ∧
    (Add (engine 100) (register 100 (fresh Anchor.UNANCHORED) [[97]]) (StringPiece.ofBytes [40])
      (some "")).error = some "unsupported syntax" ∧
    (Add (engine 100) (register 100 (fresh Anchor.UNANCHORED) [[97]]) (StringPiece.ofBytes [40])
      (some "")).ret = -1 ∧
    (Add (engine 100) (register 100 (fresh Anchor.UNANCHORED) [[97]]) (StringPiece.ofBytes [40])
      (some "")).set = register 100 (fresh Anchor.UNANCHORED) [[97]] ∧
    (engine 100).rure_compile (StringPiece.ofBytes [98]).data_cstr (engine 100).RURE_DEFAULT_FLAGS =
      Except.ok [{ atom := Atom.lit 98, star := false }] ∧
    (Add (engine 100) (register 100 (fresh Anchor.UNANCHORED) [[97]]) (StringPiece.ofBytes [98])
      none).ret ≠ -1 :=
  have hbad := (add_fails_atomically (engine 100) (register 100 (fresh Anchor.UNANCHORED) [[97]])
    (StringPiece.ofBytes [40])).1 "unsupported syntax" rfl (some "")
  have hgood := (add_fails_atomically (engine 100) (register 100 (fresh Anchor.UNANCHORED) [[97]])
    (StringPiece.ofBytes [98])).2 [{ atom := Atom.lit 98, star := false }] rfl none
  ⟨rfl, hbad.2.2.1, hbad.1, hbad.2.2.2.1, rfl, hgood.2.1 (by decide)⟩

theorem match_reports_not_compiled_witness :
    ((fresh Anchor.ANCHOR_BOTH).compiled_ = false ∧
      Match (engine 100) (fresh Anchor.ANCHOR_BOTH) (StringPiece.ofBytes [97, 98, 99]) (some [7])
          (some { kind := ErrorKind.kOther 0 }) zeroStack =
        Outcome.returned
          { ret := false, v := some [7], error_info := some { kind := ErrorKind.kNotCompiled }
            calls := [] }) ∧
    ((register 2 (fresh Anchor.ANCHOR_BOTH) [[97, 98, 99]]).compiled_ = false ∧
      (engine 2).rure_compile_set (register 2 (fresh Anchor.ANCHOR_BOTH) [[97, 98, 99]]).elem_ 0 =
        none ∧
      Match (engine 2)
          (addAll (engine 2)
            (Compile (engine 2) (register 2 (fresh Anchor.ANCHOR_BOTH) [[97, 98, 99]])).set
            [(StringPiece.ofBytes [97], none)]).2
          (StringPiece.ofBytes [97, 98, 99]) (some [7]) (some { kind := ErrorKind.kOther 0 })
          zeroStack =
        Outcome.returned
          (notCompiledResult (some [7]) (some { kind := ErrorKind.kOther 0 }))) ∧
    ((build 100 Anchor.ANCHOR_BOTH [[97, 98, 99]]).compiled_ = true ∧
      ∃ r, Match (engine 100) (build 100 Anchor.ANCHOR_BOTH [[97, 98, 99]])
          (StringPiece.ofBytes [97, 98, 99]) (some [7]) (some { kind := ErrorKind.kOther 0 })
          zeroStack = Outcome.returned r ∧
        r.error_info = some { kind := ErrorKind.kOther 0 }) :=
  ⟨⟨rfl, (match_reports_not_compiled (engine 100) (fresh Anchor.ANCHOR_BOTH)
      (StringPiece.ofBytes [97, 98, 99]) (some [7]) (some { kind := ErrorKind.kOther 0 })
      zeroStack).1 rfl⟩,
   ⟨rfl, rfl, ((match_reports_not_compiled (engine 2)
      (register 2 (fresh Anchor.ANCHOR_BOTH) [[97, 98, 99]])
      (StringPiece.ofBytes [97, 98, 99]) (some [7]) (some { kind := ErrorKind.kOther 0 })
      zeroStack).2.2.1 [(StringPiece.ofBytes [97], none)] rfl rfl).2⟩,
   ⟨rfl, _, rfl, (match_reports_not_compiled (engine 100)
      (build 100 Anchor.ANCHOR_BOTH [[97, 98, 99]])
      (StringPiece.ofBytes [97, 98, 99]) (some [7]) (some { kind := ErrorKind.kOther 0 })
      zeroStack).2.2.2 rfl _ rfl⟩⟩

/-- C4, as stated, fails: after a Compile that failed in the engine (the pattern
"abc" exceeds the budget of 2 bytes), the second Compile calls the engine's
combined compile again. -/
theorem second_compile_after_failure_calls_engine :
    (Compile (engine 2) (register 2 (fresh Anchor.UNANCHORED) [[97, 98, 99]])).ret = false ∧
    (Compile (engine 2) (register 2 (fresh Anchor.UNANCHORED) [[97, 98, 99]])).calls =
      [EngineCall.compile_set [[97, 98, 99]] 0] ∧
    (Compile (engine 2)
      (Compile (engine 2) (register 2 (fresh Anchor.UNANCHORED) [[97, 98, 99]])).set).calls =
      [EngineCall.compile_set [[97, 98, 99]] 0] ∧
    (Compile (engine 2)
      (Compile (engine 2) (register 2 (fresh Anchor.UNANCHORED) [[97, 98, 99]])).set).calls ≠ [] := by
  decide

theorem compile_refused_once_compiled_witness :
    ((build 100 Anchor.UNANCHORED [[97, 98, 99]]).compiled_ = true ∧
      Compile (engine 100) (build 100 Anchor.UNANCHORED [[97, 98, 99]]) =
        { ret := false, set := build 100 Anchor.UNANCHORED [[97, 98, 99]], calls := [] }) ∧
    ((register 100 (fresh Anchor.UNANCHORED) [[97, 98, 99]]).compiled_ = false ∧
      (engine 100).rure_compile_set (register 100 (fresh Anchor.UNANCHORED) [[97, 98, 99]]).elem_ 0 =
        some [[{ atom := Atom.lit 97, star := false }, { atom := Atom.lit 98, star := false },
          { atom := Atom.lit 99, star := false }]] ∧
      (Compile (engine 100) (register 100 (fresh Anchor.UNANCHORED) [[97, 98, 99]])).ret = true) ∧
    ((register 2 (fresh Anchor.UNANCHORED) [[97, 98, 99]]).compiled_ = false ∧
      (engine 2).rure_compile_set (register 2 (fresh Anchor.UNANCHORED) [[97, 98, 99]]).elem_ 0 =
        none ∧
      (Compile (engine 2) (register 2 (fresh Anchor.UNANCHORED) [[97, 98, 99]])).set =
        register 2 (fresh Anchor.UNANCHORED) [[97, 98, 99]]) :=
  ⟨⟨rfl, (compile_refused_once_compiled (engine 100)
      (build 100 Anchor.UNANCHORED [[97, 98, 99]])).1 rfl⟩,
   ⟨rfl, rfl, ((compile_refused_once_compiled (engine 100)
      (register 100 (fresh Anchor.UNANCHORED) [[97, 98, 99]])).2.1 _ [] rfl rfl).1⟩,
   ⟨rfl, rfl, ((compile_refused_once_compiled (engine 2)
      (register 2 (fresh Anchor.UNANCHORED) [[97, 98, 99]])).2.2 rfl rfl).2.1⟩⟩

theorem match_indices_ascending_witness :
    (build 100 Anchor.ANCHOR_BOTH [[97, 98, 99], [97, 46, 42, 99]]).compiled_ = true ∧
    ((engine 100).rure_set_matches
        [[{ atom := Atom.lit 97, star := false }, { atom := Atom.lit 98, star := false },
            { atom := Atom.lit 99, star := false }],
          [{ atom := Atom.lit 97, star := false }, { atom := Atom.any, star := true },
            { atom := Atom.lit 99, star := false }]]
        (StringPiece.ofBytes [97, 98, 99]).data_cstr).2.length ≤
      (build 100 Anchor.ANCHOR_BOTH [[97, 98, 99], [97, 46, 42, 99]]).elem_.length ∧
    ∃ r w, Match (engine 100) (build 100 Anchor.ANCHOR_BOTH [[97, 98, 99], [97, 46, 42, 99]])
        (StringPiece.ofBytes [97, 98, 99]) (some [7]) none dirtyStack = Outcome.returned r ∧
      r.v = some w ∧ w.Pairwise (fun a b => a < b) ∧
      ∀ x ∈ w, 0 ≤ x ∧
        x < ((build 100 Anchor.ANCHOR_BOTH [[97, 98, 99], [97, 46, 42, 99]]).elem_.length : Int) :=
  ⟨rfl, by decide,
    match_indices_ascending (engine 100)
      (build 100 Anchor.ANCHOR_BOTH [[97, 98, 99], [97, 46, 42, 99]])
      [[{ atom := Atom.lit 97, star := false }, { atom := Atom.lit 98, star := false },
          { atom := Atom.lit 99, star := false }],
        [{ atom := Atom.lit 97, star := false }, { atom := Atom.any, star := true },
          { atom := Atom.lit 99, star := false }]]
      (StringPiece.ofBytes [97, 98, 99]) [7] none dirtyStack rfl rfl (by decide) (by decide)⟩

theorem empty_set_matches_nothing_witness :
    (engine 100).rure_compile_set [] 0 = some [] ∧
    (∃ r, Match (engine 100)
        (Compile (engine 100)
          (Set.new (List (List Piece)) { never_capture := false, other := 0 }
            Anchor.ANCHOR_BOTH)).set
        (StringPiece.ofBytes [97, 98, 99]) none (some { kind := ErrorKind.kOther 0 }) dirtyStack =
        Outcome.returned r ∧ r.ret = false ∧ r.v = none ∧
        r.error_info = some { kind := ErrorKind.kOther 0 }) ∧
    (∃ r, Match (engine 100)
        (Compile (engine 100)
          (Set.new (List (List Piece)) { never_capture := false, other := 0 }
            Anchor.ANCHOR_BOTH)).set
        (StringPiece.ofBytes [97, 98, 99]) (some [7]) (some { kind := ErrorKind.kOther 0 })
        dirtyStack =
        Outcome.returned r ∧ r.ret = false ∧ r.v = some [] ∧
        r.error_info = some { kind := ErrorKind.kOther 0 }) :=
  have h := empty_set_matches_nothing (engine 100) { never_capture := false, other := 0 }
    Anchor.ANCHOR_BOTH [] (StringPiece.ofBytes [97, 98, 99]) [7]
    (some { kind := ErrorKind.kOther 0 }) dirtyStack rfl (fun _ => rfl) (fun _ => rfl)
  ⟨rfl, h.2.2.1, h.2.2.2⟩

/-- C2 at a text with an embedded NUL: the set holds "abc" under ANCHOR_BOTH and the
text is the 5 bytes "abc", NUL, "z".  The engine's first match of "abc" in the
text is (0, 3), which does not end at the text's length 5, yet Match reports
index 0: it hands the engine the 3 bytes before the NUL and compares the end of
the match with 3. -/
theorem anchor_both_measures_text_by_strlen :
    (build 100 Anchor.ANCHOR_BOTH [[97, 98, 99]]).elem_ = [[97, 98, 99]] ∧
    (StringPiece.ofBytes [97, 98, 99, 0, 122]).as_string.length = 5 ∧
    (∃ re, (engine 100).rure_compile_must [97, 98, 99] = some re ∧
      (engine 100).rure_find re (StringPiece.ofBytes [97, 98, 99, 0, 122]).as_string =
        some (0, 3)) ∧
    Match (engine 100) (build 100 Anchor.ANCHOR_BOTH [[97, 98, 99]])
        (StringPiece.ofBytes [97, 98, 99, 0, 122]) (some []) none zeroStack =
      Outcome.returned
        { ret := true, v := some [0], error_info := none
          calls := [EngineCall.set_matches [97, 98, 99], EngineCall.compile_must [97, 98, 99],
            EngineCall.find [97, 98, 99]] } :=
  ⟨rfl, rfl, ⟨_, rfl, rfl⟩, rfl⟩

/-- The examples the specification gives for ANCHOR_BOTH: patterns "abc" and "a.*c"
report indices 0 and 1 on the text "abc" and none on "xabc". -/
theorem anchor_both_examples :
    (∃ r, Match (engine 100) (build 100 Anchor.ANCHOR_BOTH [[97, 98, 99], [97, 46, 42, 99]])
        (StringPiece.ofBytes [97, 98, 99]) (some []) none zeroStack = Outcome.returned r ∧
      r.ret = true ∧ r.v = some [0, 1]) ∧
    (∃ r, Match (engine 100) (build 100 Anchor.ANCHOR_BOTH [[97, 98, 99], [97, 46, 42, 99]])
        (StringPiece.ofBytes [120, 97, 98, 99]) (some []) none zeroStack = Outcome.returned r ∧
      r.ret = false ∧ r.v = some []) :=
  ⟨⟨_, rfl, rfl, rfl⟩, ⟨_, rfl, rfl, rfl⟩⟩

/-- C5 at a compiled set: after Add("a") and a successful Compile, Add("b") returns
index 1 and the stored patterns grow from ["a"] to ["a", "b"] while the set stays
compiled; a following Match then reads matches[1], which the engine never wrote,
and with a non-zero byte there reports index 1 on the text "a". -/
theorem add_after_compile_appends :
    (build 100 Anchor.UNANCHORED [[97]]).compiled_ = true ∧
    (build 100 Anchor.UNANCHORED [[97]]).elem_ = [[97]] ∧
    (Add (engine 100) (build 100 Anchor.UNANCHORED [[97]]) (StringPiece.ofBytes [98]) none).ret = 1 ∧
    (Add (engine 100) (build 100 Anchor.UNANCHORED [[97]])
      (StringPiece.ofBytes [98]) none).set.elem_ = [[97], [98]] ∧
    (Add (engine 100) (build 100 Anchor.UNANCHORED [[97]])
      (StringPiece.ofBytes [98]) none).set.compiled_ = true ∧
    Match (engine 100)
        (Add (engine 100) (build 100 Anchor.UNANCHORED [[97]]) (StringPiece.ofBytes [98]) none).set
        (StringPiece.ofBytes [97]) (some []) none dirtyStack =
      Outcome.returned
        { ret := true, v := some [0, 1], error_info := none
          calls := [EngineCall.set_matches [97]] } :=
  ⟨rfl, rfl, rfl, rfl, rfl, rfl⟩

/-- C6 at a text with an embedded NUL: the set holds "foo" and "bar" under
UNANCHORED and the text is the 5 bytes "a", NUL, "foo".  On all 5 bytes the
engine's which-match reports pattern 0 and its is-match is true, yet Match hands
the engine only the byte "a", fills no index and returns false in both modes. -/
theorem unanchored_measures_text_by_strlen :
    (StringPiece.ofBytes [97, 0, 102, 111, 111]).as_string.length = 5 ∧
    (∃ re, (build 100 Anchor.UNANCHORED [[102, 111, 111], [98, 97, 114]]).prog_ = some re ∧
      (engine 100).rure_set_matches re (StringPiece.ofBytes [97, 0, 102, 111, 111]).as_string =
        (true, [true, false]) ∧
      (engine 100).rure_set_is_match re (StringPiece.ofBytes [97, 0, 102, 111, 111]).as_string =
        true) ∧
    Match (engine 100) (build 100 Anchor.UNANCHORED [[102, 111, 111], [98, 97, 114]])
        (StringPiece.ofBytes [97, 0, 102, 111, 111]) (some []) none zeroStack =
      Outcome.returned
        { ret := false, v := some [], error_info := none
          calls := [EngineCall.set_matches [97]] } ∧
    Match (engine 100) (build 100 Anchor.UNANCHORED [[102, 111, 111], [98, 97, 114]])
        (StringPiece.ofBytes [97, 0, 102, 111, 111]) none none zeroStack =
      Outcome.returned
        { ret := false, v := none, error_info := none
          calls := [EngineCall.set_is_match [97]] } :=
  ⟨rfl, ⟨_, rfl, rfl, rfl⟩, rfl, rfl⟩

/-- The example the specification gives for UNANCHORED: patterns "foo" and "bar" on
the text "a foo b" give index 0 in collect-all mode and true in boolean mode. -/
theorem unanchored_example :
    (∃ r, Match (engine 100) (build 100 Anchor.UNANCHORED [[102, 111, 111], [98, 97, 114]])
        (StringPiece.ofBytes [97, 32, 102, 111, 111, 32, 98]) (some []) none zeroStack =
        Outcome.returned r ∧ r.ret = true ∧ r.v = some [0]) ∧
    (∃ r, Match (engine 100) (build 100 Anchor.UNANCHORED [[102, 111, 111], [98, 97, 114]])
        (StringPiece.ofBytes [97, 32, 102, 111, 111, 32, 98]) none none zeroStack =
        Outcome.returned r ∧ r.ret = true) :=
  ⟨⟨_, rfl, rfl, rfl⟩, ⟨_, rfl, rfl⟩⟩

theorem anchor_start_like_unanchored_witness :
    (build 100 Anchor.ANCHOR_START [[97, 98, 99]]).compiled_ = true ∧
    (build 100 Anchor.ANCHOR_START [[97, 98, 99]]).anchor_ = Anchor.ANCHOR_START ∧
    Match (engine 100) (build 100 Anchor.ANCHOR_START [[97, 98, 99]])
        (StringPiece.ofBytes [120, 97, 98, 99]) none none zeroStack =
      Outcome.returned
        { ret := true, v := none, error_info := none
          calls := [EngineCall.set_is_match [120, 97, 98, 99]] } ∧
    ∃ r, Match (engine 100) (build 100 Anchor.ANCHOR_START [[97, 98, 99]])
        (StringPiece.ofBytes [120, 97, 98, 99]) (some [7]) none zeroStack =
        Outcome.returned r ∧
      r.ret = true ∧ r.calls = [EngineCall.set_matches [120, 97, 98, 99]] ∧ r.v = some [0] :=
  have h := anchor_start_like_unanchored (engine 100)
    (build 100 Anchor.ANCHOR_START [[97, 98, 99]])
    [[{ atom := Atom.lit 97, star := false }, { atom := Atom.lit 98, star := false },
      { atom := Atom.lit 99, star := false }]]
    (StringPiece.ofBytes [120, 97, 98, 99]) none [7] none zeroStack
  ⟨rfl, rfl, h.2.2.1 rfl rfl rfl, h.2.2.2 rfl rfl rfl (by decide)⟩

theorem anchor_both_sublist_of_unanchored_witness :
    (build 100 Anchor.UNANCHORED [[97, 98, 99], [97, 46, 42, 99]]).compiled_ = true ∧
    Match (engine 100)
        { build 100 Anchor.UNANCHORED [[97, 98, 99], [97, 46, 42, 99]] with
          anchor_ := Anchor.ANCHOR_BOTH }
        (StringPiece.ofBytes [120, 97, 98, 99]) (some []) none dirtyStack =
      Outcome.returned
        { ret := false, v := some [], error_info := none
          calls := [EngineCall.set_matches [120, 97, 98, 99],
            EngineCall.compile_must [97, 98, 99], EngineCall.find [120, 97, 98, 99],
            EngineCall.compile_must [97, 46, 42, 99], EngineCall.find [120, 97, 98, 99]] } ∧
    Match (engine 100)
        { build 100 Anchor.UNANCHORED [[97, 98, 99], [97, 46, 42, 99]] with
          anchor_ := Anchor.UNANCHORED }
        (StringPiece.ofBytes [120, 97, 98, 99]) (some []) none zeroStack =
      Outcome.returned
        { ret := true, v := some [0, 1], error_info := none
          calls := [EngineCall.set_matches [120, 97, 98, 99]] } ∧
    ∃ rb ru wb wu,
      Match (engine 100)
          { build 100 Anchor.UNANCHORED [[97, 98, 99], [97, 46, 42, 99]] with
            anchor_ := Anchor.ANCHOR_BOTH }
          (StringPiece.ofBytes [120, 97, 98, 99]) (some []) none dirtyStack =
        Outcome.returned rb ∧
      Match (engine 100)
          { build 100 Anchor.UNANCHORED [[97, 98, 99], [97, 46, 42, 99]] with
            anchor_ := Anchor.UNANCHORED }
          (StringPiece.ofBytes [120, 97, 98, 99]) (some []) none zeroStack =
        Outcome.returned ru ∧
      rb.v = some wb ∧ ru.v = some wu ∧ List.Sublist wb wu ∧ ∀ x ∈ wb, x ∈ wu :=
  ⟨rfl, rfl, rfl,
    anchor_both_sublist_of_unanchored (engine 100)
      (build 100 Anchor.UNANCHORED [[97, 98, 99], [97, 46, 42, 99]])
      [[{ atom := Atom.lit 97, star := false }, { atom := Atom.lit 98, star := false },
          { atom := Atom.lit 99, star := false }],
        [{ atom := Atom.lit 97, star := false }, { atom := Atom.any, star := true },
          { atom := Atom.lit 99, star := false }]]
      (StringPiece.ofBytes [120, 97, 98, 99]) [] [] none dirtyStack zeroStack rfl rfl
      (by decide) (by decide)⟩

theorem compile_submits_stored_patterns_witness :
    (Compile (engine 100) (register 100 (fresh Anchor.UNANCHORED) [[97, 0, 98]])).calls =
      [EngineCall.compile_set [[97, 0, 98]] 0] ∧
    (Compile (engine 100)
      (addAll (engine 100)
        (Set.new (List (List Piece)) { never_capture := false, other := 0 } Anchor.UNANCHORED)
        [(StringPiece.ofBytes [97], none), (StringPiece.ofBytes [40], none),
          (StringPiece.ofBytes [98], none)]).2).calls =
      [EngineCall.compile_set [[97], [98]] 0] ∧
    (∃ k : Nat,
      (addAll (engine 100)
        (Set.new (List (List Piece)) { never_capture := false, other := 0 } Anchor.UNANCHORED)
        [(StringPiece.ofBytes [97], none), (StringPiece.ofBytes [40], none),
          (StringPiece.ofBytes [98], none)]).1[2]? = some (k : Int) ∧
      (addAll (engine 100)
        (Set.new (List (List Piece)) { never_capture := false, other := 0 } Anchor.UNANCHORED)
        [(StringPiece.ofBytes [97], none), (StringPiece.ofBytes [40], none),
          (StringPiece.ofBytes [98], none)]).2.elem_[k]? = some [98]) ∧
    (Compile (engine 100) (register 100 (fresh Anchor.UNANCHORED) [[97, 0, 98]])).ret = true ∧
    (Compile (engine 2) (register 2 (fresh Anchor.UNANCHORED) [[97, 98, 99]])).ret = false ∧
    (Compile (engine 2) (register 2 (fresh Anchor.UNANCHORED) [[97, 98, 99]])).set.prog_ = none :=
  have h1 := compile_submits_stored_patterns (engine 100)
    (register 100 (fresh Anchor.UNANCHORED) [[97, 0, 98]]) { never_capture := false, other := 0 }
    Anchor.UNANCHORED
    [(StringPiece.ofBytes [97], none), (StringPiece.ofBytes [40], none),
      (StringPiece.ofBytes [98], none)]
  have h2 := compile_submits_stored_patterns (engine 2)
    (register 2 (fresh Anchor.UNANCHORED) [[97, 98, 99]]) { never_capture := false, other := 0 }
    Anchor.UNANCHORED [(StringPiece.ofBytes [97, 98, 99], none)]
  ⟨h1.1 rfl, h1.2.1, h1.2.2.1 2 (by decide) rfl, (h1.2.2.2.1 _ rfl rfl).1,
    (h2.2.2.2.2.1 rfl rfl).1, (h2.2.2.2.2.2 rfl).2⟩

theorem query_modes_agree_witness :
    (build 100 Anchor.ANCHOR_BOTH [[97, 98, 99], [97, 46, 42, 99]]).compiled_ = true ∧
    (engine 100).rure_set_is_match
        [[{ atom := Atom.lit 97, star := false }, { atom := Atom.lit 98, star := false },
            { atom := Atom.lit 99, star := false }],
          [{ atom := Atom.lit 97, star := false }, { atom := Atom.any, star := true },
            { atom := Atom.lit 99, star := false }]]
        (StringPiece.ofBytes [97, 98, 99]).data_cstr = true ∧
    ∃ rb rc w,
      Match (engine 100) (build 100 Anchor.ANCHOR_BOTH [[97, 98, 99], [97, 46, 42, 99]])
          (StringPiece.ofBytes [97, 98, 99]) none none dirtyStack = Outcome.returned rb ∧
      Match (engine 100) (build 100 Anchor.ANCHOR_BOTH [[97, 98, 99], [97, 46, 42, 99]])
          (StringPiece.ofBytes [97, 98, 99]) (some [7]) none zeroStack = Outcome.returned rc ∧
      rc.v = some w ∧ (rb.ret = true ↔ w ≠ []) ∧ (rc.ret = true ↔ w ≠ []) :=
  ⟨rfl, rfl,
    query_modes_agree (engine 100)
      (build 100 Anchor.ANCHOR_BOTH [[97, 98, 99], [97, 46, 42, 99]])
      [[{ atom := Atom.lit 97, star := false }, { atom := Atom.lit 98, star := false },
          { atom := Atom.lit 99, star := false }],
        [{ atom := Atom.lit 97, star := false }, { atom := Atom.any, star := true },
          { atom := Atom.lit 99, star := false }]]
      (StringPiece.ofBytes [97, 98, 99]) [7] none none dirtyStack zeroStack rfl rfl
      (by decide) rfl rfl (by decide)⟩

/-- C15 at a compiled set: S holds "abc" under UNANCHORED and reports index 0 on the
text "abc".  The set move-constructed from S keeps the anchor, the flag and the
handle but holds no pattern, since the constructor does not take over elem_;
Match in collect-all mode on it allocates matches[0] while the engine writes one
flag, so the call has no defined behaviour, and no index can be pushed. -/
theorem move_drops_patterns :
    (build 100 Anchor.UNANCHORED [[97, 98, 99]]).elem_ = [[97, 98, 99]] ∧
    Match (engine 100) (build 100 Anchor.UNANCHORED [[97, 98, 99]])
        (StringPiece.ofBytes [97, 98, 99]) (some []) none zeroStack =
      Outcome.returned
        { ret := true, v := some [0], error_info := none
          calls := [EngineCall.set_matches [97, 98, 99]] } ∧
    (Set.move (build 100 Anchor.UNANCHORED [[97, 98, 99]]) 1).dest.elem_ = [] ∧
    (Set.move (build 100 Anchor.UNANCHORED [[97, 98, 99]]) 1).dest.compiled_ = true ∧
    (Set.move (build 100 Anchor.UNANCHORED [[97, 98, 99]]) 1).dest.anchor_ = Anchor.UNANCHORED ∧
    (Set.move (build 100 Anchor.UNANCHORED [[97, 98, 99]]) 1).dest.prog_ =
      (build 100 Anchor.UNANCHORED [[97, 98, 99]]).prog_ ∧
    Match (engine 100) (Set.move (build 100 Anchor.UNANCHORED [[97, 98, 99]]) 1).dest
        (StringPiece.ofBytes [97, 98, 99]) (some []) none zeroStack = Outcome.undefined ∧
    pushMatches (matchesArray [true] zeroStack)
      (Set.move (build 100 Anchor.UNANCHORED [[97, 98, 99]]) 1).dest.elem_.length 0 [] = [] :=
  ⟨rfl, rfl, rfl, rfl, rfl, rfl, rfl, rfl⟩

/-- C16 at two Add calls whose piece is not a NUL-terminated string.  First: the
piece is the 3 bytes "a", NUL, "(": the engine is asked about "a" and accepts,
and the stored pattern is the 3 bytes, which the engine rejects.  Second, with
the engine that knows groups: after Add("a") and Compile, Add of the 1-byte view
"(" into the buffer "(a)" is validated as "(a)", returns index 1 and stores "(";
when Match under ANCHOR_BOTH finds slot 1 of matches[] set, the must-succeed
recompile of "(" fails and the process is aborted. -/
theorem stored_pattern_is_not_the_validated_one :
    accepted (engine 100) (StringPiece.ofBytes [97, 0, 40]) = true ∧
    (Add (engine 100) (fresh Anchor.ANCHOR_BOTH) (StringPiece.ofBytes [97, 0, 40]) none).calls =
      [EngineCall.compile [97] 8] ∧
    (Add (engine 100) (fresh Anchor.ANCHOR_BOTH)
      (StringPiece.ofBytes [97, 0, 40]) none).set.elem_ = [[97, 0, 40]] ∧
    (engine 100).rure_compile [97, 0, 40] 8 = Except.error "unsupported syntax" ∧
    (Add groupEngine (fresh Anchor.ANCHOR_BOTH) (StringPiece.ofBytes [97]) none).ret = 0 ∧
    (Compile groupEngine
      (Add groupEngine (fresh Anchor.ANCHOR_BOTH) (StringPiece.ofBytes [97]) none).set).ret = true ∧
    (Add groupEngine
      (Compile groupEngine
        (Add groupEngine (fresh Anchor.ANCHOR_BOTH) (StringPiece.ofBytes [97]) none).set).set
      { content := [40], rest := [97, 41] } none).calls = [EngineCall.compile [40, 97, 41] 8] ∧
    (Add groupEngine
      (Compile groupEngine
        (Add groupEngine (fresh Anchor.ANCHOR_BOTH) (StringPiece.ofBytes [97]) none).set).set
      { content := [40], rest := [97, 41] } none).ret = 1 ∧
    (Add groupEngine
      (Compile groupEngine
        (Add groupEngine (fresh Anchor.ANCHOR_BOTH) (StringPiece.ofBytes [97]) none).set).set
      { content := [40], rest := [97, 41] } none).set.elem_ = [[97], [40]] ∧
    groupEngine.rure_compile_must [40] = none ∧
    Match groupEngine
        (Add groupEngine
          (Compile groupEngine
            (Add groupEngine (fresh Anchor.ANCHOR_BOTH) (StringPiece.ofBytes [97]) none).set).set
          { content := [40], rest := [97, 41] } none).set
        (StringPiece.ofBytes [97]) (some []) none dirtyStack = Outcome.aborted :=
  ⟨rfl, rfl, rfl, rfl, rfl, rfl, rfl, rfl, rfl, rfl, rfl⟩

/-- C1 at three Add calls on a fresh set: the 3 bytes "a", NUL, "(" (a pattern the
engine rejects), the 1-byte view "a" into the buffer "a(" (a pattern the engine
accepts) and "b".  Add asks the engine about the C string at the piece's data,
"a" and "a(": the rejected pattern gets index 0 and is stored, the accepted
pattern "a" gets -1 and is not stored, and "b" gets index 1. -/
theorem add_indexes_by_c_string :
    (engine 100).rure_compile (StringPiece.ofBytes [97, 0, 40]).as_string 8 =
      Except.error "unsupported syntax" ∧
    (engine 100).rure_compile ({ content := [97], rest := [40] } : StringPiece).as_string 8 =
      Except.ok [{ atom := Atom.lit 97, star := false }] ∧
    (engine 100).rure_compile (StringPiece.ofBytes [98]).as_string 8 =
      Except.ok [{ atom := Atom.lit 98, star := false }] ∧
    (addAll (engine 100) (fresh Anchor.UNANCHORED)
      [(StringPiece.ofBytes [97, 0, 40], none), ({ content := [97], rest := [40] }, none),
        (StringPiece.ofBytes [98], none)]).1 = [0, -1, 1] ∧
    (addAll (engine 100) (fresh Anchor.UNANCHORED)
      [(StringPiece.ofBytes [97, 0, 40], none), ({ content := [97], rest := [40] }, none),
        (StringPiece.ofBytes [98], none)]).2.elem_ = [[97, 0, 40], [98]] ∧
    (addAll (engine 100) (fresh Anchor.UNANCHORED)
      [(StringPiece.ofBytes [97, 0, 40], none), ({ content := [97], rest := [40] }, none),
        (StringPiece.ofBytes [98], none)]).2.size_ = 2 :=
  ⟨rfl, rfl, rfl, rfl, rfl, rfl⟩

/-- C9 at two Add calls on a fresh set.  The piece of 3 bytes "a", NUL, "(" is a
pattern the engine rejects, yet Add asks the engine about "a" only, returns index
0, stores the 3 bytes, raises the counter and leaves the caller's error string
empty.  The 1-byte view "a" into the buffer "a(" is a pattern the engine accepts,
yet Add asks the engine about "a(", returns -1 and reports the engine's message
for "a(". -/
theorem add_verdict_is_on_the_c_string :
    (engine 100).rure_compile (StringPiece.ofBytes [97, 0, 40]).as_string 8 =
      Except.error "unsupported syntax" ∧
    Add (engine 100) (fresh Anchor.UNANCHORED) (StringPiece.ofBytes [97, 0, 40]) (some "") =
      { ret := 0
        set := { fresh Anchor.UNANCHORED with elem_ := [[97, 0, 40]], size_ := 1 }
        error := some ""
        calls := [EngineCall.compile [97] 8] } ∧
    (engine 100).rure_compile ({ content := [97], rest := [40] } : StringPiece).as_string 8 =
      Except.ok [{ atom := Atom.lit 97, star := false }] ∧
    Add (engine 100) (fresh Anchor.UNANCHORED) { content := [97], rest := [40] } (some "") =
      { ret := -1
        set := fresh Anchor.UNANCHORED
        error := some "unsupported syntax"
        calls := [EngineCall.compile [97, 40] 8] } :=
  ⟨rfl, rfl, rfl, rfl⟩

end Example

end RE2Set
